import Mathlib

/-!
# minikeyvalue: startup and shutdown orchestration of `cmd/main.go`

A shallow embedding of `func main()` (src/cmd/main.go).  The sequential part of
`main` (lines 22-73) is a state-passing function over the outcomes of the calls
it makes into the other packages; the concurrent part (lines 75-101: accept
loop, shutdown goroutine, handler goroutines) is an executable step function on
an explicit process state, driven by a schedule of labels.  Every call that
`main` makes is recorded, in program order, in a trace of events.

The packages `storage`, `recoverDataFromAof`, `retry`, `timeout`, `tcp`,
`handlers`, `aof` and `config` are not part of the sources at hand; what `main`
needs of them is modelled from the specification and marked as such.
Logging calls (`log.Info`, `log.Error`) have no effect on control flow and are
left out of the trace.

Main results, by claim:
* C1: `main` can return while a handler is still running.
* C2: the handlers are given the instance that was not recovered into.
* C3: a failed recovery aborts startup before the listener is opened.
* C4: the attempts of the retried recovery run under no deadline.
* C5: the two Storage Engine instances and who uses which.
* C6: recovery is over before the listener is used.
* C7: what can still be spawned around the shutdown transition.
* C8: who is given the AOF handle.
* C9: the bind is retried a bounded number of times, then startup aborts.
* C10: `Recover` runs at least twice before the listener is bound.
-/

set_option autoImplicit false

namespace MiniKeyValue

/-! # Definitions

## Data model -/

/-- A byte sequence (keys and values). -/
abbrev Bytes := List Nat

/-- The two logged mutations. -/
inductive Op where
  | SET
  | DELETE
  deriving DecidableEq, Repr

/-- One logged mutation of the append-only file. -/
structure Record where
  operation : Op
  key : Bytes
  value : Bytes
  deriving DecidableEq, Repr

/-- Errors that reach `main`.  `wrapRecover` and `wrapTcp` are the two
`fmt.Errorf("...: %w", err)` wrappers of lines 43 and 63. -/
inductive Error where
  | logger
  | aofOpen
  | recoverRead
  | deadlineExceeded
  | listen
  | acceptFailed
  | wrapRecover (cause : Error)
  | wrapTcp (cause : Error)
  deriving DecidableEq, Repr

/-- What `config.ParseCommandFlags()` hands to `main`. -/
structure Config where
  Port : String
  PathToStorageFile : String
  deriving DecidableEq, Repr

/-- Modelled from the spec: the Storage Engine of package `storage` (absent
from the sources): an in-memory key to value map, the AOF handle it was
constructed with, and the mode flag given to `storage.New`. -/
structure Storage where
  aofManager : Nat
  recovering : Bool
  data : List (Bytes × Bytes)
  deriving DecidableEq, Repr

/-- Modelled from the spec: `Get(key) -> (value, found)` of the Storage
Engine, no side effects. -/
def Storage.Get (st : Storage) (key : Bytes) : Option Bytes :=
  (st.data.find? (fun kv => kv.1 == key)).map (fun kv => kv.2)

/-- Modelled from the spec: the in-memory effect of one record on the map of a
Storage Engine: SET installs the mapping, DELETE removes the key and tolerates
an absent key. -/
def Storage.applyMem (st : Storage) (r : Record) : Storage :=
  match r.operation with
  | Op.SET => { st with data := (r.key, r.value) :: st.data.filter (fun kv => !(kv.1 == r.key)) }
  | Op.DELETE => { st with data := st.data.filter (fun kv => !(kv.1 == r.key)) }

/-- The dynamic context a call runs in: the retry attempt it belongs to (base
delay, attempt budget, attempt index) and the absolute deadline it runs under. -/
structure Ctx where
  retry : Option (Nat × Nat × Nat)
  deadline : Option Nat
  deriving DecidableEq, Repr

/-- The three wrapped startup steps whose result `main` inspects (lines 47, 53
and 67). -/
inductive Site where
  | retryRecover
  | timeoutRecover
  | retryBind
  deriving DecidableEq, Repr

/-- The calls `main` and its goroutines make, in the order they happen. -/
inductive Event where
  | newLogger (ok : Bool)
  | parseFlags
  | newAOF (path : String) (handle : Option Nat)
  | storageNew (aofManager : Nat) (recovering : Bool) (ref : Nat)
  | recoverNew (storage : Nat)
  | retryOperation (baseDelay attempts : Nat)
  | backoff (ms : Nat)
  | timeoutOperation (ms : Nat)
  | recover (storage : Nat) (path : String) (ctx : Ctx) (start dur : Nat)
      (failed : Bool) (applied : Nat)
  | result (site : Site) (err : Option Error)
  | newWithConn (port : String) (ctx : Ctx) (transport : Option Nat)
  | signalNotify
  | goShutdown
  | accept (transport : Option Nat) (conn : Option Nat)
  | newStorage (conn : Nat) (storage : Nat)
  | wgAdd
  | goHandler (conn : Nat)
  | handlerOp (conn : Nat) (storage : Nat) (r : Record)
  | wgDone (conn : Nat)
  | quitReceived
  | closeConn (transport : Option Nat)
  | wgWaitReturned
  | mainReturn
  deriving DecidableEq, Repr

/-- How one call of `Recover` behaves: whether it fails, how many records it
had applied when it failed, and how long it runs (milliseconds).  Every call
ends after a finite time; a call that never returned would block `main` in
line 47 for good, or be cut off like a long call in line 53. -/
structure RecoverOutcome where
  failed : Bool
  applied : Nat
  ms : Nat
  deriving DecidableEq, Repr

/-- The world `main` runs against: the outcomes of the calls whose result the
program cannot determine itself. -/
structure Env where
  loggerOk : Bool
  cfg : Config
  aofOk : Bool
  records : List Record
  recoverOutcomes : List RecoverOutcome
  bindOutcomes : List Bool
  deriving Repr

/-- The state threaded through `main`: the trace so far, the heap of Storage
Engine instances, the AOF file content, the clock, the dynamic context, the
number of `Recover` and `tcp.NewWithConn` calls made so far, and the captured
variable `transport` of line 59. -/
structure Sys where
  trace : List Event
  heap : List Storage
  file : List Record
  clock : Nat
  ctx : Ctx
  recoverCalls : Nat
  bindCalls : Nat
  transport : Option Nat
  deriving Repr

/-- Append one event to the trace. -/
def Sys.emit (s : Sys) (e : Event) : Sys :=
  { s with trace := s.trace ++ [e] }

/-- The state `main` starts in. -/
def Sys.init (env : Env) : Sys :=
  { trace := [], heap := [], file := env.records, clock := 0,
    ctx := { retry := none, deadline := none },
    recoverCalls := 0, bindCalls := 0, transport := none }

/-- A fallible zero-argument action, as passed to the retry and timeout
wrappers. -/
abbrev Action := Sys → Option Error × Sys

/-! ## Collaborators modelled from the specification -/

/-- Modelled from the spec: `storage.New(aof, recovering)` of package `storage`
(absent from the sources) allocates a fresh Storage Engine whose map starts
empty and returns a reference to it. -/
def storage.New (aofManager : Nat) (recovering : Bool) (s : Sys) : Nat × Sys :=
  (s.heap.length,
    { s with heap := s.heap ++ [{ aofManager := aofManager, recovering := recovering, data := [] }],
             trace := s.trace ++ [Event.storageNew aofManager recovering s.heap.length] })

/-- Update the Storage Engine behind a reference. -/
def Sys.modifyStorage (s : Sys) (ref : Nat) (f : Storage → Storage) : Sys :=
  { s with heap := s.heap.modify f ref }

/-- The outcome of the next `Recover` call; a call the environment says nothing
about succeeds at once. -/
def Env.recoverOutcome (env : Env) (k : Nat) : RecoverOutcome :=
  env.recoverOutcomes.getD k { failed := false, applied := 0, ms := 0 }

/-- Modelled from the spec: `Recover(path)` of package `recoverDataFromAof`
(absent from the sources) reads the records of the file in order and applies
each to the Storage Engine the replayer was constructed with, in memory only; a
failing call stops after the records it had applied.  The call takes the time
the environment gives it. -/
def Recover (env : Env) (recoverData : Nat) (path : String) : Action := fun s =>
  let o := env.recoverOutcome s.recoverCalls
  let n := if o.failed then min o.applied s.file.length else s.file.length
  let s1 := s.modifyStorage recoverData (fun st => (s.file.take n).foldl Storage.applyMem st)
  let s2 := { s1 with
    trace := s1.trace ++ [Event.recover recoverData path s.ctx s.clock o.ms o.failed n],
    clock := s.clock + o.ms,
    recoverCalls := s.recoverCalls + 1 }
  (if o.failed then some Error.recoverRead else none, s2)

/-- Modelled from the spec: the loop of `retry.RetryOperation` (package `retry`,
absent from the sources): `n` attempts are left, `i` have been made; every
attempt runs `fn`, a success ends the loop, a failure is followed by a backoff
of `baseDelay * 2 ^ i` milliseconds. -/
def retry.attempts (fn : Action) (baseDelay total : Nat) :
    Nat → Nat → Option Error → Sys → Option Error × Sys
  | 0, _, lastErr, s => (lastErr, s)
  | n + 1, i, _, s =>
    match fn { s with ctx := { s.ctx with retry := some (baseDelay, total, i) } } with
    | (none, s1) => (none, { s1 with ctx := s.ctx })
    | (some e, s1) =>
      retry.attempts fn baseDelay total n (i + 1) (some e)
        { s1 with ctx := s.ctx, clock := s1.clock + baseDelay * 2 ^ i,
                  trace := s1.trace ++ [Event.backoff (baseDelay * 2 ^ i)] }

/-- Modelled from the spec: `retry.RetryOperation(log, fn, baseDelay, attempts)`
of package `retry` (absent from the sources): bounded retry with
exponential-style backoff; it calls `fn` at most `attempts` times, returns nil
as soon as one call succeeds, and the last error otherwise. -/
def retry.RetryOperation (fn : Action) (baseDelay attempts : Nat) : Action := fun s =>
  retry.attempts fn baseDelay attempts attempts 0 none (s.emit (Event.retryOperation baseDelay attempts))

/-- Modelled from the spec: `timeout.Operation(ms, fn)` of package `timeout`
(absent from the sources): deadline-bounded execution; it runs `fn` once and
returns its result if `fn` finishes before `ms` milliseconds have passed, and a
deadline error at the deadline otherwise.  A call cut off by the deadline goes
on in the background; what it does is kept in the state, and the caller sees
the clock at the deadline. -/
def timeout.Operation (ms : Nat) (fn : Action) : Action := fun s =>
  match fn { (s.emit (Event.timeoutOperation ms)) with
              ctx := { s.ctx with deadline := some (s.clock + ms) } } with
  | (r, s1) =>
    if s1.clock < s.clock + ms then (r, { s1 with ctx := s.ctx })
    else (some Error.deadlineExceeded, { s1 with ctx := s.ctx, clock := s.clock + ms })

/-- Modelled from the spec: `tcp.NewWithConn(port)` of package `tcp` (absent
from the sources): `Listen(port)` yields a fresh listener handle or fails with
a network error. -/
def tcp.NewWithConn (env : Env) (port : String) (s : Sys) : (Option Nat × Option Error) × Sys :=
  let ok := env.bindOutcomes.getD s.bindCalls true
  let t := if ok then some s.bindCalls else none
  ((t, if ok then none else some Error.listen),
    { s with trace := s.trace ++ [Event.newWithConn port s.ctx t],
             bindCalls := s.bindCalls + 1 })

/-! ## `main`, lines 22-73 -/

/-- Line 37. -/
def baseRetryDelayMiliseconds : Nat := 300

/-- Line 38. -/
def retryAttempts : Nat := 5

/-- Line 39. -/
def timeoutMillisecondsForRecoverData : Nat := 6000

/-- Lines 41-46: the closure `recoveryDataFn`. -/
def recoveryDataFn (env : Env) (recoverData : Nat) : Action := fun s =>
  match Recover env recoverData env.cfg.PathToStorageFile s with
  | (some err, s1) => (some (Error.wrapRecover err), s1)
  | (none, s1) => (none, s1)

/-- Lines 60-66: the closure `createTCPConnection`; it assigns the captured
variable `transport` on every call. -/
def createTCPConnection (env : Env) : Action := fun s =>
  match tcp.NewWithConn env env.cfg.Port s with
  | ((t, some err), s1) => (some (Error.wrapTcp err), { s1 with transport := t })
  | ((t, none), s1) => (none, { s1 with transport := t })

/-- The `return` statements of `main` before the accept loop. -/
inductive Abort where
  | line26
  | line32
  | line50
  | line56
  | line70
  deriving DecidableEq, Repr

/-- What lines 22-73 leave behind when `main` goes on to serve: the state, the
AOF handle and the two Storage Engine references. -/
structure Started where
  sys : Sys
  aofManager : Nat
  storageInstance : Nat
  recoveryStorage : Nat
  deriving Repr

/-- The outcome of lines 22-73. -/
inductive Boot where
  | aborted (at_ : Abort) (sys : Sys)
  | serving (st : Started)
  deriving Repr

/-- Lines 22-73 of `main`.  The replayer `recoverData` of line 36 is identified
with the Storage Engine instance it is constructed with. -/
def startup (env : Env) : Boot :=
  let s0 := (Sys.init env).emit (Event.newLogger env.loggerOk)
  if !env.loggerOk then Boot.aborted Abort.line26 (s0.emit Event.mainReturn) else
  let s1 := s0.emit Event.parseFlags
  let s2 := s1.emit (Event.newAOF env.cfg.PathToStorageFile (if env.aofOk then some 0 else none))
  if !env.aofOk then Boot.aborted Abort.line32 (s2.emit Event.mainReturn) else
  let aofManager := 0
  let (storageInstance, s3) := storage.New aofManager false s2
  let (recoveryStorage, s4) := storage.New aofManager true s3
  let recoverData := recoveryStorage
  let s5 := s4.emit (Event.recoverNew recoveryStorage)
  match retry.RetryOperation (recoveryDataFn env recoverData)
      baseRetryDelayMiliseconds retryAttempts s5 with
  | (some err, s6) =>
    Boot.aborted Abort.line50 ((s6.emit (Event.result Site.retryRecover (some err))).emit Event.mainReturn)
  | (none, s6) =>
    let s7 := s6.emit (Event.result Site.retryRecover none)
    match timeout.Operation timeoutMillisecondsForRecoverData (recoveryDataFn env recoverData) s7 with
    | (some err, s8) =>
      Boot.aborted Abort.line56 ((s8.emit (Event.result Site.timeoutRecover (some err))).emit Event.mainReturn)
    | (none, s8) =>
      let s9 := s8.emit (Event.result Site.timeoutRecover none)
      match retry.RetryOperation (createTCPConnection env)
          baseRetryDelayMiliseconds retryAttempts s9 with
      | (some err, s10) =>
        Boot.aborted Abort.line70 ((s10.emit (Event.result Site.retryBind (some err))).emit Event.mainReturn)
      | (none, s10) =>
        Boot.serving
          { sys := s10.emit (Event.result Site.retryBind none),
            aofManager := aofManager,
            storageInstance := storageInstance,
            recoveryStorage := recoveryStorage }

/-! ## `main`, lines 75-101: accept loop, shutdown goroutine, handlers -/

/-- Where the main goroutine stands in the accept loop: blocked in `Accept`
(line 88), holding an accepted connection (before line 94), holding the
constructed handler (before line 95), after `wg.Add(1)` (before line 96), or
returned from `main`. -/
inductive MainPc where
  | accepting
  | accepted (conn : Nat)
  | constructed (conn storage : Nat)
  | added (conn storage : Nat)
  | returned
  deriving DecidableEq, Repr

/-- Where the shutdown goroutine of lines 79-85 stands: blocked on `<-quit`,
before `transport.CloseConn()`, blocked in `wg.Wait()`, or finished. -/
inductive ShutdownPc where
  | atQuit
  | atClose
  | atWait
  | finished
  deriving DecidableEq, Repr

/-- The process state during lines 75-101. -/
structure Proc where
  sys : Sys
  storageInstance : Nat
  mainPc : MainPc
  shutdownPc : ShutdownPc
  quit : Nat
  listenerClosed : Bool
  wg : Nat
  running : List (Nat × Nat)
  nextConn : Nat
  deriving Repr

/-- The moves of the scheduler and of the environment. -/
inductive Label where
  | signal
  | acceptConn
  | acceptError
  | newHandler
  | wgAdd
  | goHandler
  | recvQuit
  | closeConn
  | wgWait
  | handlerOp (conn : Nat) (r : Record) (appendOk : Bool)
  | handlerDone (conn : Nat)
  deriving DecidableEq, Repr

/-- Lines 75-85: the wait group, the `quit` channel, `signal.Notify`, and the
start of the shutdown goroutine. -/
def Proc.init (st : Started) : Proc :=
  { sys := (st.sys.emit Event.signalNotify).emit Event.goShutdown,
    storageInstance := st.storageInstance,
    mainPc := MainPc.accepting,
    shutdownPc := ShutdownPc.atQuit,
    quit := 0, listenerClosed := false, wg := 0, running := [], nextConn := 0 }

/-- Modelled from the spec: one mutation issued by a Client Handler (package
`handlers`, absent from the sources) on the Storage Engine it is bound to: in
live mode the record is appended to the AOF first and the map is left alone when
the append fails; in recovering mode only the map changes. -/
def Sys.mutate (s : Sys) (ref : Nat) (r : Record) (appendOk : Bool) : Sys :=
  match s.heap.get? ref with
  | none => s
  | some st =>
    if st.recovering then s.modifyStorage ref (fun x => x.applyMem r)
    else if appendOk then
      { (s.modifyStorage ref (fun x => x.applyMem r)) with file := s.file ++ [r] }
    else s

/-- One step of the process, when the label is enabled.  Once `main` has
returned the process has exited and nothing runs any more.  Of the absent
packages `tcp` and `handlers` the step takes from the spec that `Accept` fails
once `CloseConn` has been invoked (it can fail at any time) and that a handler
works on the Storage Engine it was constructed with until `HandleClient`
returns. -/
def Proc.step? (p : Proc) (l : Label) : Option Proc :=
  if p.mainPc = MainPc.returned then none else
  match l with
  | Label.signal =>
    -- signal.Notify sends without blocking into a channel of capacity 1
    some { p with quit := if p.quit = 0 then 1 else p.quit }
  | Label.acceptConn =>
    if p.mainPc = MainPc.accepting ∧ p.listenerClosed = false then
      some { p with sys := p.sys.emit (Event.accept p.sys.transport (some p.nextConn)),
                    mainPc := MainPc.accepted p.nextConn,
                    nextConn := p.nextConn + 1 }
    else none
  | Label.acceptError =>
    if p.mainPc = MainPc.accepting then
      -- lines 89-92 and 101: break, and main returns
      some { p with sys := (p.sys.emit (Event.accept p.sys.transport none)).emit Event.mainReturn,
                    mainPc := MainPc.returned }
    else none
  | Label.newHandler =>
    match p.mainPc with
    | MainPc.accepted conn =>
      some { p with sys := p.sys.emit (Event.newStorage conn p.storageInstance),
                    mainPc := MainPc.constructed conn p.storageInstance }
    | _ => none
  | Label.wgAdd =>
    match p.mainPc with
    | MainPc.constructed conn st =>
      some { p with sys := p.sys.emit Event.wgAdd, wg := p.wg + 1,
                    mainPc := MainPc.added conn st }
    | _ => none
  | Label.goHandler =>
    match p.mainPc with
    | MainPc.added conn st =>
      some { p with sys := p.sys.emit (Event.goHandler conn),
                    running := p.running ++ [(conn, st)],
                    mainPc := MainPc.accepting }
    | _ => none
  | Label.recvQuit =>
    if p.shutdownPc = ShutdownPc.atQuit ∧ 0 < p.quit then
      some { p with sys := p.sys.emit Event.quitReceived, quit := p.quit - 1,
                    shutdownPc := ShutdownPc.atClose }
    else none
  | Label.closeConn =>
    if p.shutdownPc = ShutdownPc.atClose then
      some { p with sys := p.sys.emit (Event.closeConn p.sys.transport),
                    listenerClosed := true,
                    shutdownPc := ShutdownPc.atWait }
    else none
  | Label.wgWait =>
    if p.shutdownPc = ShutdownPc.atWait ∧ p.wg = 0 then
      some { p with sys := p.sys.emit Event.wgWaitReturned,
                    shutdownPc := ShutdownPc.finished }
    else none
  | Label.handlerOp conn r appendOk =>
    match p.running.find? (fun h => h.1 == conn) with
    | some h =>
      some { p with sys := (p.sys.mutate h.2 r appendOk).emit (Event.handlerOp conn h.2 r) }
    | none => none
  | Label.handlerDone conn =>
    if p.running.any (fun h => h.1 == conn) then
      some { p with sys := p.sys.emit (Event.wgDone conn),
                    wg := p.wg - 1,
                    running := p.running.filter (fun h => !(h.1 == conn)) }
    else none

/-- One step; a label that is not enabled leaves the state as it is. -/
def Proc.step (p : Proc) (l : Label) : Proc :=
  (p.step? l).getD p

/-- Run a schedule, label by label. -/
def Proc.exec (p : Proc) (sched : List Label) : Proc :=
  sched.foldl Proc.step p

/-- Run a schedule in which every label must be enabled when its turn comes. -/
def Proc.exec? (p : Proc) : List Label → Option Proc
  | [] => some p
  | l :: ls =>
    match p.step? l with
    | some q => q.exec? ls
    | none => none

/-- What a run of `main` leaves behind: the trace, the heap, and the process
state when the run got as far as the accept loop. -/
structure Run where
  trace : List Event
  heap : List Storage
  proc : Option Proc
  deriving Repr

/-- The function `main` of src/cmd/main.go: the environment fixes the outcome
of lines 22-73, the schedule drives lines 75-101. -/
def main (env : Env) (sched : List Label) : Run :=
  match startup env with
  | Boot.aborted _ sys => { trace := sys.trace, heap := sys.heap, proc := none }
  | Boot.serving st =>
    { trace := ((Proc.init st).exec sched).sys.trace,
      heap := ((Proc.init st).exec sched).sys.heap,
      proc := some ((Proc.init st).exec sched) }

/-- The final process state of a run of `main`; a run that returns during
startup has none. -/
def mainRun (env : Env) (sched : List Label) : Option Proc :=
  (main env sched).proc

/-- The trace of a run of `main`. -/
def mainTrace (env : Env) (sched : List Label) : List Event :=
  (main env sched).trace

/-- The heap at the end of a run of `main`. -/
def mainHeap (env : Env) (sched : List Label) : List Storage :=
  (main env sched).heap

/-! ## Reading traces -/

/-- A call of `Recover`. -/
def Event.isRecover : Event → Bool
  | Event.recover _ _ _ _ _ _ _ => true
  | _ => false

/-- A call of `tcp.NewWithConn`. -/
def Event.isNewWithConn : Event → Bool
  | Event.newWithConn _ _ _ => true
  | _ => false

/-- A call of `Accept`. -/
def Event.isAccept : Event → Bool
  | Event.accept _ _ => true
  | _ => false

/-- A call of `Accept` that returned a connection. -/
def Event.isAcceptConn : Event → Bool
  | Event.accept _ (some _) => true
  | _ => false

/-- A call of `Accept` that returned an error. -/
def Event.isAcceptError : Event → Bool
  | Event.accept _ none => true
  | _ => false

/-- A call of `handlers.NewStorage`. -/
def Event.isNewStorage : Event → Bool
  | Event.newStorage _ _ => true
  | _ => false

/-- A call of `wg.Add(1)`. -/
def Event.isWgAdd : Event → Bool
  | Event.wgAdd => true
  | _ => false

/-- The start of a `HandleClient` goroutine. -/
def Event.isGoHandler : Event → Bool
  | Event.goHandler _ => true
  | _ => false

/-- A call of `storage.New`. -/
def Event.isStorageNew : Event → Bool
  | Event.storageNew _ _ _ => true
  | _ => false

/-- The call of `signal.Notify`. -/
def Event.isSignalNotify : Event → Bool
  | Event.signalNotify => true
  | _ => false

/-- The receive `<-quit` of the shutdown goroutine. -/
def Event.isQuitReceived : Event → Bool
  | Event.quitReceived => true
  | _ => false

/-- A call of `transport.CloseConn()`. -/
def Event.isCloseConn : Event → Bool
  | Event.closeConn _ => true
  | _ => false

/-- The wrapped step at `site` returned an error to `main`. -/
def Event.isFailure (site : Site) : Event → Bool
  | Event.result s (some _) => s == site
  | _ => false

/-- The wrapped step at `site` returned nil to `main`. -/
def Event.isSuccess (site : Site) : Event → Bool
  | Event.result s none => s == site
  | _ => false

/-- The events after the first one that satisfies `p`. -/
def eventsAfter (p : Event → Bool) (tr : List Event) : List Event :=
  (tr.dropWhile (fun e => !p e)).drop 1

/-- The events before the first one that satisfies `p`. -/
def eventsBefore (p : Event → Bool) (tr : List Event) : List Event :=
  tr.takeWhile (fun e => !p e)

/-- The events a process can add to the trace during lines 87-100 and in the
goroutines, for the listener `tr` and the Storage Engine `si`. -/
def Event.isServe (tr : Option Nat) (si : Nat) : Event → Bool
  | Event.accept t _ => t == tr
  | Event.newStorage _ s => s == si
  | Event.wgAdd => true
  | Event.goHandler _ => true
  | Event.handlerOp _ s _ => s == si
  | Event.wgDone _ => true
  | Event.quitReceived => true
  | Event.closeConn t => t == tr
  | Event.wgWaitReturned => true
  | Event.mainReturn => true
  | _ => false

/-! ## Invariants of the process -/

/-- What stays fixed while the process runs: the listener `tr`, the live
Storage Engine `si`, and that every handler is bound to `si`; and the trace
only grows, by process events. -/
def Proc.Stable (base : List Event) (tr : Option Nat) (si : Nat) (p : Proc) : Prop :=
  p.sys.transport = tr ∧ p.storageInstance = si ∧
  (∀ h ∈ p.running, h.2 = si) ∧
  (∀ c s, p.mainPc = MainPc.constructed c s → s = si) ∧
  (∀ c s, p.mainPc = MainPc.added c s → s = si) ∧
  ∃ evs, p.sys.trace = base ++ evs ∧ evs.all (Event.isServe tr si) = true

/-! ## What no operation changes -/

/-- The handle and the flag of an instance, the part of a Storage Engine that
no operation changes. -/
def Storage.ident (st : Storage) : Nat × Bool := (st.aofManager, st.recovering)

/-! ## The shape of startup traces -/

/-- The calls every run makes up to the start of the first retry, once the
logger and the AOF handle exist (lines 23-47). -/
def bootHead (env : Env) : List Event :=
  [Event.newLogger true, Event.parseFlags,
   Event.newAOF env.cfg.PathToStorageFile (some 0),
   Event.storageNew 0 false 0, Event.storageNew 0 true 1,
   Event.recoverNew 1, Event.retryOperation 300 5]

/-- An event of the retry-wrapped recovery of line 47: a call of `Recover` on
the recovering instance, as one of the five attempts and under no deadline, or
a backoff. -/
def RetryRecoverEv (env : Env) (e : Event) : Prop :=
  (∃ j start dur failed applied, j < 5 ∧
    e = Event.recover 1 env.cfg.PathToStorageFile
      { retry := some (300, 5, j), deadline := none } start dur failed applied) ∨
  ∃ ms, e = Event.backoff ms

/-- The events of a retry-wrapped recovery. -/
def RetrySeg (env : Env) (rs : List Event) : Prop :=
  ∀ e ∈ rs, RetryRecoverEv env e

/-- The events of a retry-wrapped recovery that returned nil: the last one is
a call of `Recover` that applied every record. -/
def RetrySegOk (env : Env) (rs : List Event) : Prop :=
  RetrySeg env rs ∧ ∃ rs1 c start dur,
    rs = rs1 ++ [Event.recover 1 env.cfg.PathToStorageFile c start dur false env.records.length]

/-- The call of `Recover` made by the deadline-bounded run of line 53. -/
def TimeoutEv (env : Env) (e : Event) : Prop :=
  ∃ start dur failed applied,
    e = Event.recover 1 env.cfg.PathToStorageFile
      { retry := none, deadline := some (start + 6000) } start dur failed applied

/-- The call of `Recover` made by a deadline-bounded run that returned nil. -/
def TimeoutEvOk (env : Env) (e : Event) : Prop :=
  ∃ start dur, dur < 6000 ∧
    e = Event.recover 1 env.cfg.PathToStorageFile
      { retry := none, deadline := some (start + 6000) } start dur false env.records.length

/-- The events of the retry-wrapped bind of line 67. -/
def BindSeg (env : Env) (bs : List Event) : Prop :=
  ∀ e ∈ bs, (∃ j t, j < 5 ∧
      e = Event.newWithConn env.cfg.Port { retry := some (300, 5, j), deadline := none } t) ∨
    ∃ ms, e = Event.backoff ms

/-- The events of a retry-wrapped bind that returned nil: the last one is the
bind that produced the listener `tr`. -/
def BindSegOk (env : Env) (bs : List Event) (tr : Option Nat) : Prop :=
  BindSeg env bs ∧ ∃ bs1 c k,
    bs = bs1 ++ [Event.newWithConn env.cfg.Port c (some k)] ∧ tr = some k

/-- The trace up to the end of the deadline-bounded recovery. -/
def recoveryTrace (env : Env) (rs : List Event) (tev : Event) : List Event :=
  bootHead env ++ rs ++ [Event.result Site.retryRecover none, Event.timeoutOperation 6000, tev]

/-- The trace up to the end of the retry-wrapped bind. -/
def bindTrace (env : Env) (rs : List Event) (tev : Event) (bs : List Event) : List Event :=
  recoveryTrace env rs tev ++
    [Event.result Site.timeoutRecover none, Event.retryOperation 300 5] ++ bs

/-- The two instances `main` creates, by handle and flag. -/
def twoInstances : List (Nat × Bool) := [(0, false), (0, true)]

/-- The shape of the outcome of lines 22-73, by the place where `main` stops. -/
def BootShape (env : Env) : Boot → Prop
  | Boot.aborted Abort.line26 sys =>
    env.loggerOk = false ∧ sys.heap = [] ∧
    sys.trace = [Event.newLogger false, Event.mainReturn]
  | Boot.aborted Abort.line32 sys =>
    env.loggerOk = true ∧ env.aofOk = false ∧ sys.heap = [] ∧
    sys.trace = [Event.newLogger true, Event.parseFlags,
      Event.newAOF env.cfg.PathToStorageFile none, Event.mainReturn]
  | Boot.aborted Abort.line50 sys =>
    env.loggerOk = true ∧ env.aofOk = true ∧ sys.heap.map Storage.ident = twoInstances ∧
    ∃ rs err, RetrySeg env rs ∧
      sys.trace = bootHead env ++ rs ++
        [Event.result Site.retryRecover (some err), Event.mainReturn]
  | Boot.aborted Abort.line56 sys =>
    env.loggerOk = true ∧ env.aofOk = true ∧ sys.heap.map Storage.ident = twoInstances ∧
    ∃ rs tev err, RetrySegOk env rs ∧ TimeoutEv env tev ∧
      sys.trace = recoveryTrace env rs tev ++
        [Event.result Site.timeoutRecover (some err), Event.mainReturn]
  | Boot.aborted Abort.line70 sys =>
    env.loggerOk = true ∧ env.aofOk = true ∧ sys.heap.map Storage.ident = twoInstances ∧
    ∃ rs tev bs err, RetrySegOk env rs ∧ TimeoutEvOk env tev ∧ BindSeg env bs ∧
      sys.trace = bindTrace env rs tev bs ++
        [Event.result Site.retryBind (some err), Event.mainReturn]
  | Boot.serving st =>
    env.loggerOk = true ∧ env.aofOk = true ∧ st.sys.heap.map Storage.ident = twoInstances ∧
    st.aofManager = 0 ∧ st.storageInstance = 0 ∧ st.recoveryStorage = 1 ∧
    ∃ rs tev bs, RetrySegOk env rs ∧ TimeoutEvOk env tev ∧ BindSegOk env bs st.sys.transport ∧
      st.sys.trace = bindTrace env rs tev bs ++ [Event.result Site.retryBind none]

/-- Lines 47-73 of `main`, from the state reached at line 47. -/
def startupFrom47 (env : Env) (s5 : Sys) : Boot :=
  match retry.RetryOperation (recoveryDataFn env 1)
      baseRetryDelayMiliseconds retryAttempts s5 with
  | (some err, s6) =>
    Boot.aborted Abort.line50 ((s6.emit (Event.result Site.retryRecover (some err))).emit Event.mainReturn)
  | (none, s6) =>
    let s7 := s6.emit (Event.result Site.retryRecover none)
    match timeout.Operation timeoutMillisecondsForRecoverData (recoveryDataFn env 1) s7 with
    | (some err, s8) =>
      Boot.aborted Abort.line56 ((s8.emit (Event.result Site.timeoutRecover (some err))).emit Event.mainReturn)
    | (none, s8) =>
      let s9 := s8.emit (Event.result Site.timeoutRecover none)
      match retry.RetryOperation (createTCPConnection env)
          baseRetryDelayMiliseconds retryAttempts s9 with
      | (some err, s10) =>
        Boot.aborted Abort.line70 ((s10.emit (Event.result Site.retryBind (some err))).emit Event.mainReturn)
      | (none, s10) =>
        Boot.serving
          { sys := s10.emit (Event.result Site.retryBind none),
            aofManager := 0,
            storageInstance := 0,
            recoveryStorage := 1 }

/-- The state `main` is in at line 47 when the logger and the AOF handle
exist. -/
def sysAt47 (env : Env) : Sys :=
  { trace := [Event.newLogger true, Event.parseFlags,
      Event.newAOF env.cfg.PathToStorageFile (some 0),
      Event.storageNew 0 false 0, Event.storageNew 0 true 1, Event.recoverNew 1],
    heap := [{ aofManager := 0, recovering := false, data := [] },
             { aofManager := 0, recovering := true, data := [] }],
    file := env.records, clock := 0,
    ctx := { retry := none, deadline := none },
    recoverCalls := 0, bindCalls := 0, transport := none }

/-! ## Concrete runs -/

/-- A run against a healthy environment: the AOF holds `SET a 1`, every call
succeeds at once. -/
def healthyEnv : Env :=
  { loggerOk := true
    cfg := { Port := "6379", PathToStorageFile := "data.aof" }
    aofOk := true
    records := [{ operation := Op.SET, key := [97], value := [49] }]
    recoverOutcomes := []
    bindOutcomes := [] }

/-- The AOF file cannot be opened. -/
def noAofEnv : Env :=
  { healthyEnv with aofOk := false }

/-- Every call of `Recover` fails at once. -/
def brokenRecoveryEnv : Env :=
  { healthyEnv with
    recoverOutcomes := List.replicate 5 { failed := true, applied := 0, ms := 10 } }

/-- The first call of `Recover` takes ten seconds and succeeds; the second one
succeeds at once. -/
def slowRecoveryEnv : Env :=
  { healthyEnv with recoverOutcomes := [{ failed := false, applied := 0, ms := 10000 }] }

/-- The port is taken on every bind attempt. -/
def busyPortEnv : Env :=
  { healthyEnv with bindOutcomes := List.replicate 5 false }

/-- The port is taken on the first two bind attempts and free on the third. -/
def contendedPortEnv : Env :=
  { healthyEnv with bindOutcomes := [false, false, true] }

/-- Every label of the schedule is enabled when its turn comes, in a run that
reaches the accept loop. -/
def mainEnabled (env : Env) (sched : List Label) : Bool :=
  match startup env with
  | Boot.aborted _ _ => false
  | Boot.serving st => ((Proc.init st).exec? sched).isSome

/-- A call that opens or uses the listener: `tcp.NewWithConn` or `Accept`. -/
def Event.isListener (e : Event) : Bool :=
  e.isNewWithConn || e.isAccept

/-! ## Definitions for C1 -/

/-- One client connects and its handler starts; then the stop signal arrives,
the shutdown goroutine closes the listener, and `Accept` fails. -/
def drainSchedule : List Label :=
  [Label.acceptConn, Label.newHandler, Label.wgAdd, Label.goHandler,
   Label.signal, Label.recvQuit, Label.closeConn, Label.acceptError]

/-! ## Definitions for C2 -/

/-- The first client connects and its handler is constructed. -/
def firstClientSchedule : List Label :=
  [Label.acceptConn, Label.newHandler]

/-! ## Definitions for C5 -/

/-- The Storage Engine reference an event passes to the callee. -/
def Event.storageArg : Event → Option Nat
  | Event.recoverNew s => some s
  | Event.recover s _ _ _ _ _ _ => some s
  | Event.newStorage _ s => some s
  | Event.handlerOp _ s _ => some s
  | _ => none

/-- A call into the Recovery Replayer: its construction or a `Recover`. -/
def Event.isReplayer : Event → Bool
  | Event.recoverNew _ => true
  | Event.recover _ _ _ _ _ _ _ => true
  | _ => false

/-- A call made by or for a Client Handler: its construction or one of its
mutations. -/
def Event.isHandler : Event → Bool
  | Event.newStorage _ _ => true
  | Event.handlerOp _ _ _ => true
  | _ => false

/-! ## Definitions for C8 -/

/-- The AOF handle an event passes to the callee. -/
def Event.aofArg : Event → Option Nat
  | Event.storageNew h _ _ => some h
  | _ => none

/-! ## Definitions for C9 -/

/-- A call of `tcp.NewWithConn` is made as one of the `retryAttempts` attempts
of a `retry.RetryOperation` with base delay `baseRetryDelayMiliseconds`. -/
def Event.bindUnderRetry : Event → Bool
  | Event.newWithConn _ c _ =>
    match c.retry with
    | some (b, n, i) =>
      b == baseRetryDelayMiliseconds && n == retryAttempts && decide (i < retryAttempts)
    | none => false
  | _ => true

/-- An `Accept` or a `CloseConn` is made on the listener `t`. -/
def Event.onTransport (t : Option Nat) : Event → Bool
  | Event.accept x _ => x == t
  | Event.closeConn x => x == t
  | _ => true

/-! ## Definitions for C6 -/

/-- A call of `Recover` that had returned when its caller went on: it ran
under no deadline, or it ended before its deadline. -/
def Event.recoverReturned : Event → Bool
  | Event.recover _ _ c start dur _ _ =>
    match c.deadline with
    | none => true
    | some d => decide (start + dur < d)
  | _ => true

/-- A call of `Recover` made as an attempt of a retry. -/
def Event.isRetryRecover : Event → Bool
  | Event.recover _ _ c _ _ _ _ => c.retry.isSome
  | _ => false

/-- A call of `Recover` made under a deadline. -/
def Event.isDeadlineRecover : Event → Bool
  | Event.recover _ _ c _ _ _ _ => c.deadline.isSome
  | _ => false

/-- Whether a call of `Recover` returned an error. -/
def Event.recoverFailed : Event → Option Bool
  | Event.recover _ _ _ _ _ failed _ => some failed
  | _ => none

/-! ## Definitions for C10 -/

/-- The path a call of `Recover` is given. -/
def Event.recoverPath : Event → Option String
  | Event.recover _ p _ _ _ _ _ => some p
  | _ => none

/-- A call of `Recover` that applied the record at index `i` of the file. -/
def Event.appliesRecord (i : Nat) : Event → Bool
  | Event.recover _ _ _ _ _ _ applied => decide (i < applied)
  | _ => false

/-! ## Definitions for C7 -/

/-- How many calls of `handlers.NewStorage` the main goroutine still makes
before it is back in `Accept`. -/
def MainPc.remNewStorage : MainPc → Nat
  | MainPc.accepted _ => 1
  | _ => 0

/-- How many calls of `wg.Add` the main goroutine still makes before it is
back in `Accept`. -/
def MainPc.remWgAdd : MainPc → Nat
  | MainPc.accepted _ => 1
  | MainPc.constructed _ _ => 1
  | _ => 0

/-- How many handler goroutines the main goroutine still starts before it is
back in `Accept`. -/
def MainPc.remGoHandler : MainPc → Nat
  | MainPc.accepted _ => 1
  | MainPc.constructed _ _ => 1
  | MainPc.added _ _ => 1
  | _ => 0

/-- The order of events around `CloseConn` and around the first `Accept`
error. -/
def Proc.Ordered (p : Proc) : Prop :=
  (p.sys.trace.any Event.isCloseConn = true → p.listenerClosed = true) ∧
  (eventsAfter Event.isCloseConn p.sys.trace).any Event.isAcceptConn = false ∧
  (eventsAfter Event.isCloseConn p.sys.trace).countP Event.isNewStorage +
    p.mainPc.remNewStorage ≤ 1 ∧
  (eventsAfter Event.isCloseConn p.sys.trace).countP Event.isWgAdd +
    p.mainPc.remWgAdd ≤ 1 ∧
  (eventsAfter Event.isCloseConn p.sys.trace).countP Event.isGoHandler +
    p.mainPc.remGoHandler ≤ 1 ∧
  (p.sys.trace.any Event.isAcceptError = true → p.mainPc = MainPc.returned) ∧
  (eventsAfter Event.isAcceptError p.sys.trace).all (fun e => e == Event.mainReturn) = true

/-- The calls `main` makes before line 75, and its return. -/
def Event.isStartup : Event → Bool
  | Event.newLogger _ => true
  | Event.parseFlags => true
  | Event.newAOF _ _ => true
  | Event.storageNew _ _ _ => true
  | Event.recoverNew _ => true
  | Event.retryOperation _ _ => true
  | Event.backoff _ => true
  | Event.timeoutOperation _ => true
  | Event.recover _ _ _ _ _ _ _ => true
  | Event.result _ _ => true
  | Event.newWithConn _ _ _ => true
  | Event.mainReturn => true
  | _ => false

/-- The trace lines 22-73 leave behind. -/
def Boot.trace : Boot → List Event
  | Boot.aborted _ sys => sys.trace
  | Boot.serving st => st.sys.trace

/-- A client connects after the shutdown goroutine has received the stop
notification and before it closes the listener. -/
def lateClientSchedule : List Label :=
  [Label.signal, Label.recvQuit, Label.acceptConn, Label.newHandler, Label.wgAdd,
   Label.goHandler]

/-- A client is accepted, then the stop signal arrives and the listener is
closed before the main goroutine constructs the handler. -/
def closeRaceSchedule : List Label :=
  [Label.acceptConn, Label.signal, Label.recvQuit, Label.closeConn, Label.newHandler,
   Label.wgAdd, Label.goHandler]

/-! # Theorems -/

/-! ## The process: general facts -/

theorem Sys.mutate_trace (s : Sys) (ref : Nat) (r : Record) (b : Bool) :
    (s.mutate ref r b).trace = s.trace := by
  unfold Sys.mutate
  split
  · rfl
  · split
    · rfl
    · split <;> rfl

theorem Sys.mutate_transport (s : Sys) (ref : Nat) (r : Record) (b : Bool) :
    (s.mutate ref r b).transport = s.transport := by
  unfold Sys.mutate
  split
  · rfl
  · split
    · rfl
    · split <;> rfl

theorem Proc.step_of_step? (p q : Proc) (l : Label) (h : p.step? l = some q) :
    p.step l = q := by
  simp [Proc.step, h]

theorem Proc.step_cases (p : Proc) (l : Label) :
    p.step l = p ∨ p.step? l = some (p.step l) := by
  unfold Proc.step
  cases h : p.step? l with
  | none => left; rfl
  | some q => right; rfl

/-- Induction along a schedule. -/
theorem Proc.exec_induction (Inv : Proc → Prop)
    (hstep : ∀ p l q, Inv p → p.step? l = some q → Inv q)
    (sched : List Label) : ∀ p, Inv p → Inv (p.exec sched) := by
  induction sched with
  | nil => intro p hp; exact hp
  | cons l ls ih =>
    intro p hp
    have h1 : Inv (p.step l) := by
      rcases Proc.step_cases p l with h | h
      · rw [h]; exact hp
      · exact hstep p l _ hp h
    exact ih _ h1

theorem Proc.exec_of_exec? (sched : List Label) :
    ∀ (p q : Proc), p.exec? sched = some q → p.exec sched = q := by
  induction sched with
  | nil => intro p q h; simpa [Proc.exec?, Proc.exec] using h
  | cons l ls ih =>
    intro p q h
    unfold Proc.exec? at h
    cases hs : p.step? l with
    | none => simp [hs] at h
    | some r =>
      simp only [hs] at h
      have := ih r q h
      simpa [Proc.exec, Proc.step, hs] using this

theorem Proc.Stable_step (base : List Event) (tr : Option Nat) (si : Nat)
    (p : Proc) (l : Label) (q : Proc)
    (hp : Proc.Stable base tr si p) (h : p.step? l = some q) :
    Proc.Stable base tr si q := by
  obtain ⟨h1, h2, h3, h4, h5, evs, h6, h7⟩ := hp
  unfold Proc.step? at h
  split at h
  · exact absurd h (by simp)
  · cases l with
    | signal =>
      simp only [Option.some.injEq] at h
      subst h
      exact ⟨h1, h2, h3, h4, h5, evs, h6, h7⟩
    | acceptConn =>
      simp only at h
      split at h
      · simp only [Option.some.injEq] at h
        subst h
        refine ⟨h1, h2, h3, by simp, by simp, evs ++ [Event.accept p.sys.transport (some p.nextConn)], ?_, ?_⟩
        · simp [Sys.emit, h6]
        · simp [h7, Event.isServe, h1]
      · exact absurd h (by simp)
    | acceptError =>
      simp only at h
      split at h
      · simp only [Option.some.injEq] at h
        subst h
        refine ⟨h1, h2, h3, by simp, by simp,
          evs ++ [Event.accept p.sys.transport none, Event.mainReturn], ?_, ?_⟩
        · simp [Sys.emit, h6]
        · simp [h7, Event.isServe, h1]
      · exact absurd h (by simp)
    | newHandler =>
      simp only at h
      split at h
      · simp only [Option.some.injEq] at h
        subst h
        rename_i conn hpc
        refine ⟨h1, h2, h3, ?_, by simp, evs ++ [Event.newStorage conn p.storageInstance], ?_, ?_⟩
        · intro c s hcs
          simp only [MainPc.constructed.injEq] at hcs
          rw [← hcs.2, h2]
        · simp [Sys.emit, h6]
        · simp [h7, Event.isServe, h2]
      · exact absurd h (by simp)
    | wgAdd =>
      simp only at h
      split at h
      · simp only [Option.some.injEq] at h
        subst h
        rename_i conn st hpc
        refine ⟨h1, h2, h3, by simp, ?_, evs ++ [Event.wgAdd], ?_, ?_⟩
        · intro c s hcs
          simp only [MainPc.added.injEq] at hcs
          rw [← hcs.2]
          exact h4 conn st hpc
        · simp [Sys.emit, h6]
        · simp [h7, Event.isServe]
      · exact absurd h (by simp)
    | goHandler =>
      simp only at h
      split at h
      · simp only [Option.some.injEq] at h
        subst h
        rename_i conn st hpc
        refine ⟨h1, h2, ?_, by simp, by simp, evs ++ [Event.goHandler conn], ?_, ?_⟩
        · intro hd hhd
          simp only [List.mem_append, List.mem_singleton] at hhd
          rcases hhd with hhd | hhd
          · exact h3 hd hhd
          · rw [hhd]; exact h5 conn st hpc
        · simp [Sys.emit, h6]
        · simp [h7, Event.isServe]
      · exact absurd h (by simp)
    | recvQuit =>
      simp only at h
      split at h
      · simp only [Option.some.injEq] at h
        subst h
        refine ⟨h1, h2, h3, h4, h5, evs ++ [Event.quitReceived], ?_, ?_⟩
        · simp [Sys.emit, h6]
        · simp [h7, Event.isServe]
      · exact absurd h (by simp)
    | closeConn =>
      simp only at h
      split at h
      · simp only [Option.some.injEq] at h
        subst h
        refine ⟨h1, h2, h3, h4, h5, evs ++ [Event.closeConn p.sys.transport], ?_, ?_⟩
        · simp [Sys.emit, h6]
        · simp [h7, Event.isServe, h1]
      · exact absurd h (by simp)
    | wgWait =>
      simp only at h
      split at h
      · simp only [Option.some.injEq] at h
        subst h
        refine ⟨h1, h2, h3, h4, h5, evs ++ [Event.wgWaitReturned], ?_, ?_⟩
        · simp [Sys.emit, h6]
        · simp [h7, Event.isServe]
      · exact absurd h (by simp)
    | handlerOp conn r appendOk =>
      simp only at h
      split at h
      · simp only [Option.some.injEq] at h
        subst h
        rename_i hd hfind
        have hmem : hd ∈ p.running := List.mem_of_find?_eq_some hfind
        refine ⟨?_, h2, h3, h4, h5, evs ++ [Event.handlerOp conn hd.2 r], ?_, ?_⟩
        · simp [Sys.emit, Sys.mutate_transport, h1]
        · simp [Sys.emit, Sys.mutate_trace, h6]
        · simp [h7, Event.isServe, h3 hd hmem]
      · exact absurd h (by simp)
    | handlerDone conn =>
      simp only at h
      split at h
      · simp only [Option.some.injEq] at h
        subst h
        refine ⟨h1, h2, ?_, h4, h5, evs ++ [Event.wgDone conn], ?_, ?_⟩
        · intro hd hhd
          exact h3 hd (List.mem_of_mem_filter hhd)
        · simp [Sys.emit, h6]
        · simp [h7, Event.isServe]
      · exact absurd h (by simp)

/-! ## Startup: the retry and timeout wrappers -/

/-- The trace of a bounded retry: every attempt adds one event of the action,
run in the context of that attempt, a failed attempt is followed by a backoff,
and a retry that returns nil ends with a successful attempt. -/
theorem retry.attempts_spec (fn : Action) (b tot : Nat)
    (I : Sys → Prop) (Q : Ctx → Event → Prop) (G : Event → Sys → Prop)
    (hIctx : ∀ (s : Sys) (c : Ctx), I s → I { s with ctx := c })
    (hIback : ∀ (s : Sys) (c : Ctx) (k : Nat) (e : Event), I s →
      I { s with ctx := c, clock := k, trace := s.trace ++ [e] })
    (hfn : ∀ s, I s → ∃ e, (fn s).2.trace = s.trace ++ [e] ∧ I (fn s).2 ∧ Q s.ctx e ∧
      ((fn s).1 = none → G e (fn s).2))
    (hG : ∀ (e : Event) (s : Sys) (c : Ctx), G e s → G e { s with ctx := c }) :
    ∀ (n i : Nat) (last : Option Error) (s : Sys), I s →
      I (retry.attempts fn b tot n i last s).2 ∧
      (retry.attempts fn b tot n i last s).2.ctx = s.ctx ∧
      ∃ evs, (retry.attempts fn b tot n i last s).2.trace = s.trace ++ evs ∧
        (∀ e ∈ evs, (∃ j, i ≤ j ∧ j < i + n ∧ Q { s.ctx with retry := some (b, tot, j) } e) ∨
          ∃ ms, e = Event.backoff ms) ∧
        ((retry.attempts fn b tot n i last s).1 = none →
          (n = 0 ∧ last = none ∧ evs = []) ∨
          ∃ evs1 e, evs = evs1 ++ [e] ∧ G e (retry.attempts fn b tot n i last s).2) := by
  intro n
  induction n with
  | zero =>
    intro i last s hs
    refine ⟨by simpa [retry.attempts] using hs, by simp [retry.attempts], [], by simp [retry.attempts], by simp, ?_⟩
    intro h
    left
    exact ⟨by simp, by simpa [retry.attempts] using h, by simp⟩
  | succ n ih =>
    intro i last s hs
    have hs1 : I { s with ctx := { s.ctx with retry := some (b, tot, i) } } := hIctx s _ hs
    obtain ⟨e, he1, he2, he3, he4⟩ := hfn _ hs1
    unfold retry.attempts
    cases hres : fn { s with ctx := { s.ctx with retry := some (b, tot, i) } } with
    | mk r s1 =>
      rw [hres] at he1 he2 he4
      simp only at he1 he2 he4 he3
      cases r with
      | none =>
        simp only
        refine ⟨hIctx _ _ he2, trivial, [e], by simp [he1], ?_, ?_⟩
        · intro x hx
          simp only [List.mem_singleton] at hx
          subst hx
          left
          exact ⟨i, le_refl _, by omega, he3⟩
        · intro _
          right
          exact ⟨[], e, rfl, hG _ _ _ (he4 rfl)⟩
      | some err =>
        simp only
        have hs2 : I { s1 with ctx := s.ctx, clock := s1.clock + b * 2 ^ i,
                               trace := s1.trace ++ [Event.backoff (b * 2 ^ i)] } :=
          hIback s1 s.ctx _ _ he2
        obtain ⟨k1, k2, evs, k3, k4, k5⟩ := ih (i + 1) (some err) _ hs2
        refine ⟨k1, by simpa using k2, e :: Event.backoff (b * 2 ^ i) :: evs, ?_, ?_, ?_⟩
        · rw [k3]; simp [he1]
        · intro x hx
          simp only [List.mem_cons] at hx
          rcases hx with hx | hx | hx
          · subst hx
            left
            exact ⟨i, le_refl _, by omega, he3⟩
          · right
            exact ⟨_, hx⟩
          · rcases k4 x hx with ⟨j, j1, j2, j3⟩ | hb
            · left
              exact ⟨j, by omega, by omega, j3⟩
            · right
              exact hb
        · intro hnone
          rcases k5 hnone with ⟨_, hl, _⟩ | ⟨evs1, e1, q1, q2⟩
          · exact absurd hl (by simp)
          · right
            exact ⟨e :: Event.backoff (b * 2 ^ i) :: evs1, e1, by simp [q1], q2⟩

theorem Storage.ident_applyMem (st : Storage) (r : Record) :
    (st.applyMem r).ident = st.ident := by
  unfold Storage.applyMem Storage.ident
  split <;> rfl

theorem Storage.ident_foldl (rs : List Record) :
    ∀ st : Storage, (rs.foldl Storage.applyMem st).ident = st.ident := by
  induction rs with
  | nil => intro st; rfl
  | cons r rs ih =>
    intro st
    simp only [List.foldl_cons]
    rw [ih, Storage.ident_applyMem]

theorem map_ident_modify (f : Storage → Storage) (hf : ∀ st, (f st).ident = st.ident) :
    ∀ (l : List Storage) (n : Nat), (l.modify f n).map Storage.ident = l.map Storage.ident := by
  intro l
  induction l with
  | nil => intro n; simp
  | cons a l ih =>
    intro n
    cases n with
    | zero => simp [hf]
    | succ n => simp [ih]

theorem Sys.mutate_heap (s : Sys) (ref : Nat) (r : Record) (b : Bool) :
    (s.mutate ref r b).heap.map Storage.ident = s.heap.map Storage.ident := by
  unfold Sys.mutate
  split
  · rfl
  · split
    · exact map_ident_modify _ (fun st => Storage.ident_applyMem st r) _ _
    · split
      · exact map_ident_modify _ (fun st => Storage.ident_applyMem st r) _ _
      · rfl

/-- What one call of `recoveryDataFn` does to the state. -/
theorem recoveryDataFn_spec (env : Env) (rd : Nat) (s : Sys) :
    (recoveryDataFn env rd s).2.trace = s.trace ++
      [Event.recover rd env.cfg.PathToStorageFile s.ctx s.clock
        (env.recoverOutcome s.recoverCalls).ms (env.recoverOutcome s.recoverCalls).failed
        (if (env.recoverOutcome s.recoverCalls).failed
          then min (env.recoverOutcome s.recoverCalls).applied s.file.length
          else s.file.length)] ∧
    (recoveryDataFn env rd s).2.file = s.file ∧
    (recoveryDataFn env rd s).2.transport = s.transport ∧
    (recoveryDataFn env rd s).2.ctx = s.ctx ∧
    (recoveryDataFn env rd s).2.clock = s.clock + (env.recoverOutcome s.recoverCalls).ms ∧
    (recoveryDataFn env rd s).2.heap.map Storage.ident = s.heap.map Storage.ident ∧
    ((recoveryDataFn env rd s).1 = none ↔ (env.recoverOutcome s.recoverCalls).failed = false) := by
  have hm : ∀ n : Nat, (s.heap.modify (fun st => (s.file.take n).foldl Storage.applyMem st) rd).map
      Storage.ident = s.heap.map Storage.ident :=
    fun n => map_ident_modify _ (fun st => Storage.ident_foldl _ st) _ _
  have hm2 : (s.heap.modify (fun st => s.file.foldl Storage.applyMem st) rd).map
      Storage.ident = s.heap.map Storage.ident :=
    map_ident_modify _ (fun st => Storage.ident_foldl _ st) _ _
  cases hf : (env.recoverOutcome s.recoverCalls).failed <;>
    simp [recoveryDataFn, Recover, hf, Sys.modifyStorage, hm, hm2]

/-- What one call of `createTCPConnection` does to the state. -/
theorem createTCPConnection_spec (env : Env) (s : Sys) :
    ∃ t, (createTCPConnection env s).2.trace = s.trace ++
        [Event.newWithConn env.cfg.Port s.ctx t] ∧
      (createTCPConnection env s).2.transport = t ∧
      (createTCPConnection env s).2.heap = s.heap ∧
      (createTCPConnection env s).2.ctx = s.ctx ∧
      ((createTCPConnection env s).1 = none → ∃ k, t = some k) := by
  unfold createTCPConnection tcp.NewWithConn
  cases hb : env.bindOutcomes.getD s.bindCalls true
  · exact ⟨none, by simp⟩
  · exact ⟨some s.bindCalls, by simp⟩

/-- What the deadline-bounded recovery of line 53 does to the state. -/
theorem timeout_recover_spec (env : Env) (rd : Nat) (s : Sys) (hfile : s.file = env.records) :
    ∃ dur failed applied,
      (timeout.Operation timeoutMillisecondsForRecoverData (recoveryDataFn env rd) s).2.trace =
        s.trace ++ [Event.timeoutOperation 6000,
          Event.recover rd env.cfg.PathToStorageFile
            { s.ctx with deadline := some (s.clock + 6000) } s.clock dur failed applied] ∧
      (timeout.Operation timeoutMillisecondsForRecoverData (recoveryDataFn env rd) s).2.file = s.file ∧
      (timeout.Operation timeoutMillisecondsForRecoverData (recoveryDataFn env rd) s).2.heap.map
        Storage.ident = s.heap.map Storage.ident ∧
      (timeout.Operation timeoutMillisecondsForRecoverData (recoveryDataFn env rd) s).2.ctx = s.ctx ∧
      ((timeout.Operation timeoutMillisecondsForRecoverData (recoveryDataFn env rd) s).1 = none →
        failed = false ∧ applied = env.records.length ∧ dur < 6000) := by
  obtain ⟨h1, h2, h3, h4, h5, h6, h7⟩ := recoveryDataFn_spec env rd
    { (s.emit (Event.timeoutOperation 6000)) with
        ctx := { s.ctx with deadline := some (s.clock + 6000) } }
  refine ⟨(env.recoverOutcome s.recoverCalls).ms, (env.recoverOutcome s.recoverCalls).failed,
    (if (env.recoverOutcome s.recoverCalls).failed
      then min (env.recoverOutcome s.recoverCalls).applied s.file.length
      else s.file.length), ?_⟩
  unfold timeout.Operation timeoutMillisecondsForRecoverData
  cases hres : recoveryDataFn env rd
      { (s.emit (Event.timeoutOperation 6000)) with
          ctx := { s.ctx with deadline := some (s.clock + 6000) } } with
  | mk r s1 =>
    rw [hres] at h1 h2 h3 h4 h5 h6 h7
    simp only [Sys.emit] at h1 h2 h3 h4 h5 h6 h7
    simp only
    split
    · rename_i hlt
      refine ⟨by simp [h1], h2, h6, rfl, ?_⟩
      intro hr
      have hf := h7.mp hr
      refine ⟨hf, ?_, ?_⟩
      · simp [hf, hfile]
      · rw [h5] at hlt
        omega
    · refine ⟨by simp [h1], h2, h6, rfl, ?_⟩
      intro hr
      exact absurd hr (by simp)

/-! ## Startup: the shape of the trace -/

theorem startup_eq (env : Env) (hl : env.loggerOk = true) (ha : env.aofOk = true) :
    startup env = startupFrom47 env (sysAt47 env) := by
  simp [startup, startupFrom47, sysAt47, hl, ha, storage.New, Sys.emit, Sys.init]

/-- The retry-wrapped recovery of line 47, from a state whose file is the
AOF content and whose heap holds the two instances. -/
theorem retry_recover_spec (env : Env) (s : Sys)
    (hfile : s.file = env.records) (hheap : s.heap.map Storage.ident = twoInstances)
    (hctx : s.ctx = { retry := none, deadline := none }) :
    ∃ rs,
      (retry.RetryOperation (recoveryDataFn env 1) baseRetryDelayMiliseconds retryAttempts s).2.trace
        = s.trace ++ [Event.retryOperation 300 5] ++ rs ∧
      (retry.RetryOperation (recoveryDataFn env 1) baseRetryDelayMiliseconds retryAttempts s).2.file
        = env.records ∧
      (retry.RetryOperation (recoveryDataFn env 1) baseRetryDelayMiliseconds
        retryAttempts s).2.heap.map Storage.ident = twoInstances ∧
      (retry.RetryOperation (recoveryDataFn env 1) baseRetryDelayMiliseconds retryAttempts s).2.ctx
        = { retry := none, deadline := none } ∧
      RetrySeg env rs ∧
      ((retry.RetryOperation (recoveryDataFn env 1) baseRetryDelayMiliseconds retryAttempts s).1
        = none → RetrySegOk env rs) := by
  have h := retry.attempts_spec (recoveryDataFn env 1) 300 5
    (fun s => s.file = env.records ∧ s.heap.map Storage.ident = twoInstances)
    (fun c e => ∃ start dur failed applied,
      e = Event.recover 1 env.cfg.PathToStorageFile c start dur failed applied)
    (fun e _ => ∃ c start dur,
      e = Event.recover 1 env.cfg.PathToStorageFile c start dur false env.records.length)
    (fun s c hs => hs)
    (fun s c k e hs => hs)
    (fun s hs => by
      obtain ⟨h1, h2, h3, h4, h5, h6, h7⟩ := recoveryDataFn_spec env 1 s
      refine ⟨_, h1, ⟨h2.trans hs.1, h6.trans hs.2⟩, ⟨_, _, _, _, rfl⟩, ?_⟩
      intro hr
      have hf := h7.mp hr
      have hs1 : s.file = env.records := hs.1
      exact ⟨s.ctx, s.clock, (env.recoverOutcome s.recoverCalls).ms, by simp [hf, hs1]⟩)
    (fun e s c hg => hg)
    5 0 none (s.emit (Event.retryOperation 300 5)) ⟨hfile, hheap⟩
  obtain ⟨⟨k1, k2⟩, k3, evs, k4, k5, k6⟩ := h
  have hseg : RetrySeg env evs := by
    intro e he
    rcases k5 e he with ⟨j, _, j2, st, du, fa, ap, hq⟩ | hb
    · left
      refine ⟨j, st, du, fa, ap, by omega, ?_⟩
      rw [hq]
      simp [Sys.emit, hctx]
    · right
      exact hb
  refine ⟨evs, ?_, k1, k2, ?_, hseg, ?_⟩
  · simpa [retry.RetryOperation, baseRetryDelayMiliseconds, retryAttempts, Sys.emit] using k4
  · simpa [retry.RetryOperation, baseRetryDelayMiliseconds, retryAttempts, Sys.emit, hctx] using k3
  · intro hr
    have hr2 : (retry.attempts (recoveryDataFn env 1) 300 5 5 0 none
        (s.emit (Event.retryOperation 300 5))).1 = none := by
      simpa [retry.RetryOperation, baseRetryDelayMiliseconds, retryAttempts] using hr
    rcases k6 hr2 with ⟨h0, _⟩ | ⟨evs1, e, q1, c, st, du, q2⟩
    · exact absurd h0 (by decide)
    · exact ⟨hseg, evs1, c, st, du, by rw [q1, q2]⟩

/-- The retry-wrapped bind of line 67. -/
theorem retry_bind_spec (env : Env) (s : Sys)
    (hctx : s.ctx = { retry := none, deadline := none }) :
    ∃ bs,
      (retry.RetryOperation (createTCPConnection env) baseRetryDelayMiliseconds retryAttempts s).2.trace
        = s.trace ++ [Event.retryOperation 300 5] ++ bs ∧
      (retry.RetryOperation (createTCPConnection env) baseRetryDelayMiliseconds
        retryAttempts s).2.heap.map Storage.ident = s.heap.map Storage.ident ∧
      BindSeg env bs ∧
      ((retry.RetryOperation (createTCPConnection env) baseRetryDelayMiliseconds retryAttempts s).1
        = none → BindSegOk env bs
          (retry.RetryOperation (createTCPConnection env) baseRetryDelayMiliseconds
            retryAttempts s).2.transport) := by
  have h := retry.attempts_spec (createTCPConnection env) 300 5
    (fun x => x.heap.map Storage.ident = s.heap.map Storage.ident)
    (fun c e => ∃ t, e = Event.newWithConn env.cfg.Port c t)
    (fun e x => ∃ c k, e = Event.newWithConn env.cfg.Port c (some k) ∧ x.transport = some k)
    (fun s c hs => hs)
    (fun s c k e hs => hs)
    (fun x hx => by
      obtain ⟨t, h1, h2, h3, h4, h5⟩ := createTCPConnection_spec env x
      have hx1 : (createTCPConnection env x).2.heap.map Storage.ident =
          s.heap.map Storage.ident := by rw [h3]; exact hx
      refine ⟨_, h1, hx1, ⟨t, rfl⟩, ?_⟩
      intro hr
      obtain ⟨k, hk⟩ := h5 hr
      exact ⟨_, k, by rw [hk], by rw [h2, hk]⟩)
    (fun e s c hg => hg)
    5 0 none (s.emit (Event.retryOperation 300 5)) rfl
  obtain ⟨k1, k3, evs, k4, k5, k6⟩ := h
  have hseg : BindSeg env evs := by
    intro e he
    rcases k5 e he with ⟨j, _, j2, t, hq⟩ | hb
    · left
      refine ⟨j, t, by omega, ?_⟩
      rw [hq]
      simp [Sys.emit, hctx]
    · right
      exact hb
  refine ⟨evs, ?_, ?_, hseg, ?_⟩
  · simpa [retry.RetryOperation, baseRetryDelayMiliseconds, retryAttempts, Sys.emit] using k4
  · simpa [retry.RetryOperation, baseRetryDelayMiliseconds, retryAttempts, Sys.emit] using k1
  · intro hr
    have hr2 : (retry.attempts (createTCPConnection env) 300 5 5 0 none
        (s.emit (Event.retryOperation 300 5))).1 = none := by
      simpa [retry.RetryOperation, baseRetryDelayMiliseconds, retryAttempts] using hr
    rcases k6 hr2 with ⟨h0, _⟩ | ⟨evs1, e, q1, c, k, q2, q3⟩
    · exact absurd h0 (by decide)
    · refine ⟨hseg, evs1, c, k, by rw [q1, q2], ?_⟩
      simpa [retry.RetryOperation, baseRetryDelayMiliseconds, retryAttempts] using q3

theorem startupFrom47_shape (env : Env) (hl : env.loggerOk = true) (ha : env.aofOk = true) :
    BootShape env (startupFrom47 env (sysAt47 env)) := by
  obtain ⟨rs, r1, r2, r3, r4, r5, r6⟩ := retry_recover_spec env (sysAt47 env) rfl rfl rfl
  unfold startupFrom47
  cases hres : retry.RetryOperation (recoveryDataFn env 1) baseRetryDelayMiliseconds
      retryAttempts (sysAt47 env) with
  | mk r s6 =>
    rw [hres] at r1 r2 r3 r4 r6
    simp only at r1 r2 r3 r4 r6
    cases r with
    | some err =>
      simp only [BootShape]
      refine ⟨hl, ha, by simpa [Sys.emit] using r3, rs, err, r5, ?_⟩
      simp [Sys.emit, r1, bootHead, sysAt47]
    | none =>
      simp only
      have ok := r6 rfl
      obtain ⟨dur, failed, applied, t1, t2, t3, t4, t5⟩ :=
        timeout_recover_spec env 1 (s6.emit (Event.result Site.retryRecover none))
          (by simpa [Sys.emit] using r2)
      cases hres2 : timeout.Operation timeoutMillisecondsForRecoverData (recoveryDataFn env 1)
          (s6.emit (Event.result Site.retryRecover none)) with
      | mk r2 s8 =>
        rw [hres2] at t1 t2 t3 t4 t5
        simp only [Sys.emit] at t1 t2 t3 t4 t5
        rw [r4] at t1 t4
        have htev : TimeoutEv env (Event.recover 1 env.cfg.PathToStorageFile
            { retry := none, deadline := some (s6.clock + 6000) } s6.clock dur failed applied) :=
          ⟨_, _, _, _, rfl⟩
        cases r2 with
        | some err =>
          simp only [BootShape]
          refine ⟨hl, ha, by simpa [Sys.emit, t3] using r3, rs, _, err, ok, htev, ?_⟩
          simp [Sys.emit, t1, r1, recoveryTrace, bootHead, sysAt47]
        | none =>
          simp only
          obtain ⟨u1, u2, u3⟩ := t5 rfl
          have htok : TimeoutEvOk env (Event.recover 1 env.cfg.PathToStorageFile
              { retry := none, deadline := some (s6.clock + 6000) } s6.clock dur failed applied) :=
            ⟨_, _, u3, by rw [u1, u2]⟩
          obtain ⟨bs, b1, b2, b3, b4⟩ :=
            retry_bind_spec env (s8.emit (Event.result Site.timeoutRecover none))
              (by simpa [Sys.emit] using t4)
          cases hres3 : retry.RetryOperation (createTCPConnection env) baseRetryDelayMiliseconds
              retryAttempts (s8.emit (Event.result Site.timeoutRecover none)) with
          | mk rb s10 =>
            rw [hres3] at b1 b2 b4
            simp only [Sys.emit] at b1 b2 b4
            have hheap : s10.heap.map Storage.ident = twoInstances := by
              rw [b2, t3]; simpa [Sys.emit] using r3
            cases rb with
            | some err =>
              simp only [BootShape]
              refine ⟨hl, ha, by simpa [Sys.emit] using hheap, rs, _, bs, err, ok, htok, b3, ?_⟩
              simp [Sys.emit, b1, t1, r1, bindTrace, recoveryTrace, bootHead, sysAt47]
            | none =>
              simp only [BootShape]
              refine ⟨hl, ha, by simpa [Sys.emit] using hheap, trivial, trivial, trivial, rs, _, bs, ok, htok,
                by simpa [Sys.emit] using b4 rfl, ?_⟩
              simp [Sys.emit, b1, t1, r1, bindTrace, recoveryTrace, bootHead, sysAt47]

/-- The outcome of lines 22-73 has the shape its stopping place dictates. -/
theorem startup_shape (env : Env) : BootShape env (startup env) := by
  cases hl : env.loggerOk with
  | false => simp [startup, BootShape, Sys.emit, Sys.init, hl]
  | true =>
    cases ha : env.aofOk with
    | false => simp [startup, BootShape, Sys.emit, Sys.init, hl, ha]
    | true =>
      rw [startup_eq env hl ha]
      exact startupFrom47_shape env hl ha

/-! ## The whole run -/

theorem Proc.heap_step (p : Proc) (l : Label) (q : Proc) (h : p.step? l = some q) :
    q.sys.heap.map Storage.ident = p.sys.heap.map Storage.ident := by
  unfold Proc.step? at h
  split at h
  · exact absurd h (by simp)
  · cases l <;> simp only at h <;> split at h <;>
      first
      | (simp only [Option.some.injEq] at h
         subst h
         simp [Sys.emit, Sys.mutate_heap])
      | simp at h

/-- The trace and the heap of the process after any schedule. -/
theorem serve_shape (st : Started) (sched : List Label) :
    ∃ evs, ((Proc.init st).exec sched).sys.trace =
        st.sys.trace ++ [Event.signalNotify, Event.goShutdown] ++ evs ∧
      evs.all (Event.isServe st.sys.transport st.storageInstance) = true ∧
      ((Proc.init st).exec sched).sys.heap.map Storage.ident = st.sys.heap.map Storage.ident := by
  have h := Proc.exec_induction
    (fun p => Proc.Stable (st.sys.trace ++ [Event.signalNotify, Event.goShutdown])
        st.sys.transport st.storageInstance p ∧
      p.sys.heap.map Storage.ident = st.sys.heap.map Storage.ident)
    (fun p l q hp hq => ⟨Proc.Stable_step _ _ _ p l q hp.1 hq,
      (Proc.heap_step p l q hq).trans hp.2⟩)
    sched (Proc.init st)
    ⟨⟨rfl, rfl, by simp [Proc.init], by simp [Proc.init], by simp [Proc.init],
      [], by simp [Proc.init, Sys.emit], by simp⟩, rfl⟩
  obtain ⟨⟨_, _, _, _, _, evs, h1, h2⟩, h3⟩ := h
  exact ⟨evs, h1, h2, h3⟩

/-- The shape of every run of `main`, by the place where it stops or goes on
to serve. -/
theorem run_shape (env : Env) (sched : List Label) :
    (env.loggerOk = false ∧ mainRun env sched = none ∧ mainHeap env sched = [] ∧
      mainTrace env sched = [Event.newLogger false, Event.mainReturn]) ∨
    (env.loggerOk = true ∧ env.aofOk = false ∧ mainRun env sched = none ∧
      mainHeap env sched = [] ∧
      mainTrace env sched = [Event.newLogger true, Event.parseFlags,
        Event.newAOF env.cfg.PathToStorageFile none, Event.mainReturn]) ∨
    (env.loggerOk = true ∧ env.aofOk = true ∧ mainRun env sched = none ∧
      (mainHeap env sched).map Storage.ident = twoInstances ∧
      ∃ rs err, RetrySeg env rs ∧
        mainTrace env sched = bootHead env ++ rs ++
          [Event.result Site.retryRecover (some err), Event.mainReturn]) ∨
    (env.loggerOk = true ∧ env.aofOk = true ∧ mainRun env sched = none ∧
      (mainHeap env sched).map Storage.ident = twoInstances ∧
      ∃ rs tev err, RetrySegOk env rs ∧ TimeoutEv env tev ∧
        mainTrace env sched = recoveryTrace env rs tev ++
          [Event.result Site.timeoutRecover (some err), Event.mainReturn]) ∨
    (env.loggerOk = true ∧ env.aofOk = true ∧ mainRun env sched = none ∧
      (mainHeap env sched).map Storage.ident = twoInstances ∧
      ∃ rs tev bs err, RetrySegOk env rs ∧ TimeoutEvOk env tev ∧ BindSeg env bs ∧
        mainTrace env sched = bindTrace env rs tev bs ++
          [Event.result Site.retryBind (some err), Event.mainReturn]) ∨
    (env.loggerOk = true ∧ env.aofOk = true ∧ (mainRun env sched).isSome = true ∧
      (mainHeap env sched).map Storage.ident = twoInstances ∧
      ∃ rs tev bs tr evs, RetrySegOk env rs ∧ TimeoutEvOk env tev ∧ BindSegOk env bs tr ∧
        evs.all (Event.isServe tr 0) = true ∧
        mainTrace env sched = bindTrace env rs tev bs ++
          [Event.result Site.retryBind none, Event.signalNotify, Event.goShutdown] ++ evs) := by
  have h := startup_shape env
  unfold mainRun mainHeap mainTrace main
  cases hs : startup env with
  | aborted a sys =>
    rw [hs] at h
    cases a with
    | line26 =>
      obtain ⟨h1, h2, h3⟩ := h
      exact Or.inl ⟨h1, rfl, h2, h3⟩
    | line32 =>
      obtain ⟨h1, h2, h3, h4⟩ := h
      exact Or.inr (Or.inl ⟨h1, h2, rfl, h3, h4⟩)
    | line50 =>
      obtain ⟨h1, h2, h3, h4⟩ := h
      exact Or.inr (Or.inr (Or.inl ⟨h1, h2, rfl, h3, h4⟩))
    | line56 =>
      obtain ⟨h1, h2, h3, h4⟩ := h
      exact Or.inr (Or.inr (Or.inr (Or.inl ⟨h1, h2, rfl, h3, h4⟩)))
    | line70 =>
      obtain ⟨h1, h2, h3, h4⟩ := h
      exact Or.inr (Or.inr (Or.inr (Or.inr (Or.inl ⟨h1, h2, rfl, h3, h4⟩))))
  | serving st =>
    rw [hs] at h
    obtain ⟨h1, h2, h3, _, h5, _, rs, tev, bs, k1, k2, k3, k4⟩ := h
    obtain ⟨evs, e1, e2, e3⟩ := serve_shape st sched
    refine Or.inr (Or.inr (Or.inr (Or.inr (Or.inr
      ⟨h1, h2, rfl, by simpa [e3] using h3, rs, tev, bs, st.sys.transport, evs, k1, k2, k3, ?_, ?_⟩))))
    · rw [← h5]; exact e2
    · simp only
      rw [e1, k4]
      simp

/-! ## List facts used below -/

theorem any_false_of_forall (f : Event → Bool) (l : List Event)
    (h : ∀ e ∈ l, f e = false) : l.any f = false := by
  rw [List.any_eq_false]
  intro e he
  simp [h e he]

theorem serve_any_false (f : Event → Bool) (tr : Option Nat) (si : Nat) (evs : List Event)
    (hserve : evs.all (Event.isServe tr si) = true)
    (hf : ∀ e, Event.isServe tr si e = true → f e = false) : evs.any f = false := by
  rw [List.all_eq_true] at hserve
  exact any_false_of_forall f evs (fun e he => hf e (hserve e he))

theorem retrySeg_any_false (f : Event → Bool) (env : Env) (rs : List Event)
    (hseg : RetrySeg env rs)
    (hrec : ∀ s p c a b d n, f (Event.recover s p c a b d n) = false)
    (hback : ∀ ms, f (Event.backoff ms) = false) : rs.any f = false := by
  apply any_false_of_forall
  intro e he
  rcases hseg e he with ⟨j, st, du, fa, ap, _, rfl⟩ | ⟨ms, rfl⟩
  · exact hrec _ _ _ _ _ _ _
  · exact hback ms

theorem bindSeg_any_false (f : Event → Bool) (env : Env) (bs : List Event)
    (hseg : BindSeg env bs)
    (hbind : ∀ p c t, f (Event.newWithConn p c t) = false)
    (hback : ∀ ms, f (Event.backoff ms) = false) : bs.any f = false := by
  apply any_false_of_forall
  intro e he
  rcases hseg e he with ⟨j, t, _, rfl⟩ | ⟨ms, rfl⟩
  · exact hbind _ _ _
  · exact hback ms

theorem filter_nil_of_any_false (f : Event → Bool) (l : List Event)
    (h : l.any f = false) : l.filter f = [] := by
  rw [List.filter_eq_nil_iff]
  rw [List.any_eq_false] at h
  exact h

theorem all_of_forall (f : Event → Bool) (l : List Event)
    (h : ∀ e ∈ l, f e = true) : l.all f = true := by
  rw [List.all_eq_true]
  exact h

theorem serve_all (f : Event → Bool) (tr : Option Nat) (si : Nat) (evs : List Event)
    (hserve : evs.all (Event.isServe tr si) = true)
    (hf : ∀ e, Event.isServe tr si e = true → f e = true) : evs.all f = true := by
  rw [List.all_eq_true] at hserve
  exact all_of_forall f evs (fun e he => hf e (hserve e he))

theorem retrySeg_all (f : Event → Bool) (env : Env) (rs : List Event)
    (hseg : RetrySeg env rs)
    (hrec : ∀ j a b d n, j < 5 → f (Event.recover 1 env.cfg.PathToStorageFile
      { retry := some (300, 5, j), deadline := none } a b d n) = true)
    (hback : ∀ ms, f (Event.backoff ms) = true) : rs.all f = true := by
  apply all_of_forall
  intro e he
  rcases hseg e he with ⟨j, st, du, fa, ap, hj, rfl⟩ | ⟨ms, rfl⟩
  · exact hrec _ _ _ _ _ hj
  · exact hback ms

theorem bindSeg_all (f : Event → Bool) (env : Env) (bs : List Event)
    (hseg : BindSeg env bs)
    (hbind : ∀ j t, j < 5 → f (Event.newWithConn env.cfg.Port
      { retry := some (300, 5, j), deadline := none } t) = true)
    (hback : ∀ ms, f (Event.backoff ms) = true) : bs.all f = true := by
  apply all_of_forall
  intro e he
  rcases hseg e he with ⟨j, t, hj, rfl⟩ | ⟨ms, rfl⟩
  · exact hbind _ _ hj
  · exact hback ms

/-- A property of events that holds of every call `main` can make holds of
every event of every trace. -/
theorem mainTrace_all (env : Env) (sched : List Label) (P : Event → Bool)
    (h1 : ∀ b, P (Event.newLogger b) = true)
    (h2 : P Event.parseFlags = true)
    (h3 : ∀ h, P (Event.newAOF env.cfg.PathToStorageFile h) = true)
    (h4 : P (Event.storageNew 0 false 0) = true)
    (h5 : P (Event.storageNew 0 true 1) = true)
    (h6 : P (Event.recoverNew 1) = true)
    (h7 : P (Event.retryOperation 300 5) = true)
    (h8 : ∀ ms, P (Event.backoff ms) = true)
    (h9 : ∀ j a b d n, j < 5 → P (Event.recover 1 env.cfg.PathToStorageFile
      { retry := some (300, 5, j), deadline := none } a b d n) = true)
    (h10 : ∀ a b d n, P (Event.recover 1 env.cfg.PathToStorageFile
      { retry := none, deadline := some (a + 6000) } a b d n) = true)
    (h11 : P (Event.timeoutOperation 6000) = true)
    (h12 : ∀ site err, P (Event.result site err) = true)
    (h13 : ∀ j t, j < 5 → P (Event.newWithConn env.cfg.Port
      { retry := some (300, 5, j), deadline := none } t) = true)
    (h14 : P Event.signalNotify = true)
    (h15 : P Event.goShutdown = true)
    (h16 : P Event.mainReturn = true)
    (h17 : ∀ tr e, Event.isServe tr 0 e = true → P e = true) :
    (mainTrace env sched).all P = true := by
  rcases run_shape env sched with
    ⟨_, _, _, ht⟩ | ⟨_, _, _, _, ht⟩ | ⟨_, _, _, _, rs, err, hrs, ht⟩ |
    ⟨_, _, _, _, rs, tev, err, hrs, htev, ht⟩ |
    ⟨_, _, _, _, rs, tev, bs, err, hrs, htev, hbs, ht⟩ |
    ⟨_, _, _, _, rs, tev, bs, tr, evs, hrs, htev, hbs, hevs, ht⟩
  · rw [ht]; simp [h1, h16]
  · rw [ht]; simp [h1, h2, h3, h16]
  · rw [ht]
    simp [bootHead, h1, h2, h3, h4, h5, h6, h7, h12, h16, retrySeg_all P env rs hrs h9 h8]
  · obtain ⟨st, du, fa, ap, rfl⟩ := htev
    rw [ht]
    simp [recoveryTrace, bootHead, h1, h2, h3, h4, h5, h6, h7, h10, h11, h12, h16,
      retrySeg_all P env rs hrs.1 h9 h8]
  · obtain ⟨st, du, _, rfl⟩ := htev
    rw [ht]
    simp [bindTrace, recoveryTrace, bootHead, h1, h2, h3, h4, h5, h6, h7, h10, h11, h12, h16,
      retrySeg_all P env rs hrs.1 h9 h8, bindSeg_all P env bs hbs h13 h8]
  · obtain ⟨st, du, _, rfl⟩ := htev
    rw [ht]
    simp [bindTrace, recoveryTrace, bootHead, h1, h2, h3, h4, h5, h6, h7, h10, h11, h12, h14, h15,
      retrySeg_all P env rs hrs.1 h9 h8, bindSeg_all P env bs hbs.1 h13 h8,
      serve_all P tr 0 evs hevs (h17 tr)]

/-- The calls of `storage.New` in a run. -/
theorem storageNew_calls (env : Env) (sched : List Label) :
    (mainTrace env sched).filter Event.isStorageNew =
      (if env.loggerOk && env.aofOk
        then [Event.storageNew 0 false 0, Event.storageNew 0 true 1] else []) := by
  have hS : ∀ tr e, Event.isServe tr 0 e = true → Event.isStorageNew e = false := by
    intro tr e he
    cases e <;> first | rfl | exact absurd he (by simp [Event.isServe])
  rcases run_shape env sched with
    ⟨hl, _, _, ht⟩ | ⟨hl, ha, _, _, ht⟩ | ⟨hl, ha, _, _, rs, err, hrs, ht⟩ |
    ⟨hl, ha, _, _, rs, tev, err, hrs, htev, ht⟩ |
    ⟨hl, ha, _, _, rs, tev, bs, err, hrs, htev, hbs, ht⟩ |
    ⟨hl, ha, _, _, rs, tev, bs, tr, evs, hrs, htev, hbs, hevs, ht⟩
  · rw [ht]; simp [hl, Event.isStorageNew]
  · rw [ht]; simp [hl, ha, Event.isStorageNew]
  · have r1 := filter_nil_of_any_false _ _ (retrySeg_any_false Event.isStorageNew env rs hrs
      (fun _ _ _ _ _ _ _ => rfl) (fun _ => rfl))
    rw [ht]; simp [hl, ha, bootHead, Event.isStorageNew, r1]
  · obtain ⟨st, du, fa, ap, rfl⟩ := htev
    have r1 := filter_nil_of_any_false _ _ (retrySeg_any_false Event.isStorageNew env rs hrs.1
      (fun _ _ _ _ _ _ _ => rfl) (fun _ => rfl))
    rw [ht]; simp [hl, ha, recoveryTrace, bootHead, Event.isStorageNew, r1]
  · obtain ⟨st, du, _, rfl⟩ := htev
    have r1 := filter_nil_of_any_false _ _ (retrySeg_any_false Event.isStorageNew env rs hrs.1
      (fun _ _ _ _ _ _ _ => rfl) (fun _ => rfl))
    have r2 := filter_nil_of_any_false _ _ (bindSeg_any_false Event.isStorageNew env bs hbs
      (fun _ _ _ => rfl) (fun _ => rfl))
    rw [ht]; simp [hl, ha, bindTrace, recoveryTrace, bootHead, Event.isStorageNew, r1, r2]
  · obtain ⟨st, du, _, rfl⟩ := htev
    have r1 := filter_nil_of_any_false _ _ (retrySeg_any_false Event.isStorageNew env rs hrs.1
      (fun _ _ _ _ _ _ _ => rfl) (fun _ => rfl))
    have r2 := filter_nil_of_any_false _ _ (bindSeg_any_false Event.isStorageNew env bs hbs.1
      (fun _ _ _ => rfl) (fun _ => rfl))
    have r3 := filter_nil_of_any_false _ _ (serve_any_false Event.isStorageNew tr 0 evs hevs
      (hS tr))
    rw [ht]; simp [hl, ha, bindTrace, recoveryTrace, bootHead, Event.isStorageNew, r1, r2, r3]

/-- The instances on the heap at the end of a run, by handle and flag. -/
theorem heap_instances (env : Env) (sched : List Label) :
    (mainHeap env sched).map Storage.ident =
      (if env.loggerOk && env.aofOk then [(0, false), (0, true)] else []) := by
  rcases run_shape env sched with
    ⟨hl, _, hh, _⟩ | ⟨hl, ha, _, hh, _⟩ | ⟨hl, ha, _, hh, _⟩ |
    ⟨hl, ha, _, hh, _⟩ | ⟨hl, ha, _, hh, _⟩ | ⟨hl, ha, _, hh, _⟩
  · simp [hl, hh]
  · simp [hl, ha, hh]
  all_goals simp [hl, ha, hh, twoInstances]

/-- A run in which the logger and the AOF handle are created starts with the
calls of lines 23-47. -/
theorem bootHead_start (env : Env) (sched : List Label)
    (hok : (env.loggerOk && env.aofOk) = true) :
    ∃ rest, mainTrace env sched = bootHead env ++ rest := by
  simp only [Bool.and_eq_true] at hok
  rcases run_shape env sched with
    ⟨hl, _, _, ht⟩ | ⟨hl, ha, _, _, ht⟩ | ⟨hl, ha, _, _, rs, err, hrs, ht⟩ |
    ⟨hl, ha, _, _, rs, tev, err, hrs, htev, ht⟩ |
    ⟨hl, ha, _, _, rs, tev, bs, err, hrs, htev, hbs, ht⟩ |
    ⟨hl, ha, _, _, rs, tev, bs, tr, evs, hrs, htev, hbs, hevs, ht⟩
  · rw [hl] at hok; exact absurd hok.1 (by decide)
  · rw [ha] at hok; exact absurd hok.2 (by decide)
  · exact ⟨_, by rw [ht, List.append_assoc]⟩
  · exact ⟨_, by rw [ht]; simp only [recoveryTrace, List.append_assoc]; rfl⟩
  · exact ⟨_, by rw [ht]; simp only [bindTrace, recoveryTrace, List.append_assoc]; rfl⟩
  · exact ⟨_, by rw [ht]; simp only [bindTrace, recoveryTrace, List.append_assoc]; rfl⟩

theorem any_false_of_sublist (f : Event → Bool) (l₁ l₂ : List Event)
    (hsub : l₁.Sublist l₂) (h : l₂.any f = false) : l₁.any f = false := by
  rw [List.any_eq_false] at h ⊢
  exact fun e he => h e (hsub.subset he)

/-- A run in which `tcp.NewWithConn` or `Accept` is called consists of the
recovery part, which ends with the nil result of the deadline-bounded run and
holds no listener call, and of a rest that holds no call of `Recover`. -/
theorem recovery_split (env : Env) (sched : List Label)
    (h : (mainTrace env sched).any Event.isListener = true) :
    ∃ rs tev rest, RetrySegOk env rs ∧ TimeoutEvOk env tev ∧
      mainTrace env sched =
        recoveryTrace env rs tev ++ Event.result Site.timeoutRecover none :: rest ∧
      (recoveryTrace env rs tev).any Event.isListener = false ∧
      rest.any Event.isRecover = false := by
  have hA : ∀ rs tev, RetrySeg env rs → TimeoutEv env tev →
      (recoveryTrace env rs tev).any Event.isListener = false := by
    intro rs tev hrs htev
    obtain ⟨st, du, fa, ap, rfl⟩ := htev
    have r1 := retrySeg_any_false Event.isListener env rs hrs
      (fun _ _ _ _ _ _ _ => rfl) (fun _ => rfl)
    simp [recoveryTrace, bootHead, Event.isListener, Event.isNewWithConn, Event.isAccept, r1]
  rcases run_shape env sched with
    ⟨_, _, _, ht⟩ | ⟨_, _, _, _, ht⟩ | ⟨_, _, hrun, _, rs, err, hrs, ht⟩ |
    ⟨_, _, hrun, _, rs, tev, err, hrs, htev, ht⟩ |
    ⟨_, _, hrun, _, rs, tev, bs, err, hrs, htev, hbs, ht⟩ |
    ⟨_, _, _, _, rs, tev, bs, tr, evs, hrs, htev, hbs, hevs, ht⟩
  · rw [ht] at h
    simp [Event.isListener, Event.isNewWithConn, Event.isAccept] at h
  · rw [ht] at h
    simp [Event.isListener, Event.isNewWithConn, Event.isAccept] at h
  · exfalso
    rw [ht] at h
    have r1 := retrySeg_any_false Event.isListener env rs hrs
      (fun _ _ _ _ _ _ _ => rfl) (fun _ => rfl)
    simp [bootHead, Event.isListener, Event.isNewWithConn, Event.isAccept, r1] at h
  · exfalso
    rw [ht] at h
    have r1 := hA rs tev hrs.1 htev
    simp [Event.isListener, Event.isNewWithConn, Event.isAccept, r1] at h
  · have htev2 : TimeoutEv env tev := by
      obtain ⟨st, du, _, rfl⟩ := htev
      exact ⟨_, _, _, _, rfl⟩
    refine ⟨rs, tev, Event.retryOperation 300 5 :: (bs ++
      [Event.result Site.retryBind (some err), Event.mainReturn]), hrs, htev, ?_,
      hA rs tev hrs.1 htev2, ?_⟩
    · rw [ht]; simp [bindTrace]
    · have b1 := bindSeg_any_false Event.isRecover env bs hbs (fun _ _ _ => rfl) (fun _ => rfl)
      simp [Event.isRecover, b1]
  · have htev2 : TimeoutEv env tev := by
      obtain ⟨st, du, _, rfl⟩ := htev
      exact ⟨_, _, _, _, rfl⟩
    refine ⟨rs, tev, Event.retryOperation 300 5 :: (bs ++
      [Event.result Site.retryBind none, Event.signalNotify, Event.goShutdown] ++ evs),
      hrs, htev, ?_, hA rs tev hrs.1 htev2, ?_⟩
    · rw [ht]; simp [bindTrace]
    · have b1 := bindSeg_any_false Event.isRecover env bs hbs.1 (fun _ _ _ => rfl) (fun _ => rfl)
      have b2 := serve_any_false Event.isRecover tr 0 evs hevs
        (fun e he => by
          cases e <;> first | rfl | exact absurd he (by simp [Event.isServe]))
      simp [Event.isRecover, b1, b2]

/-! ## C3: a failed recovery aborts startup -/

/-- C3: in every run of `main` in which the retry-wrapped recovery (line 47) or
the deadline-bounded recovery (line 53) returns an error, `main` returns
during startup: the trace ends with the return of `main` and holds no call of
`tcp.NewWithConn`, no `Accept`, no `handlers.NewStorage` and no handler
goroutine. -/
theorem recovery_failure_aborts_startup (env : Env) (sched : List Label)
    (h : (mainTrace env sched).any (Event.isFailure Site.retryRecover) = true ∨
         (mainTrace env sched).any (Event.isFailure Site.timeoutRecover) = true) :
    mainRun env sched = none ∧
    (mainTrace env sched).getLast? = some Event.mainReturn ∧
    (mainTrace env sched).any Event.isNewWithConn = false ∧
    (mainTrace env sched).any Event.isAccept = false ∧
    (mainTrace env sched).any Event.isNewStorage = false ∧
    (mainTrace env sched).any Event.isGoHandler = false := by
  rcases run_shape env sched with
    ⟨_, _, _, ht⟩ | ⟨_, _, _, _, ht⟩ | ⟨_, _, hrun, _, rs, err, hrs, ht⟩ |
    ⟨_, _, hrun, _, rs, tev, err, hrs, htev, ht⟩ |
    ⟨_, _, _, _, rs, tev, bs, err, hrs, htev, hbs, ht⟩ |
    ⟨_, _, _, _, rs, tev, bs, tr, evs, hrs, htev, hbs, hevs, ht⟩
  · rw [ht] at h
    simp [Event.isFailure] at h
  · rw [ht] at h
    simp [Event.isFailure] at h
  · have r1 := retrySeg_any_false Event.isNewWithConn env rs hrs
      (fun _ _ _ _ _ _ _ => rfl) (fun _ => rfl)
    have r2 := retrySeg_any_false Event.isAccept env rs hrs
      (fun _ _ _ _ _ _ _ => rfl) (fun _ => rfl)
    have r3 := retrySeg_any_false Event.isNewStorage env rs hrs
      (fun _ _ _ _ _ _ _ => rfl) (fun _ => rfl)
    have r4 := retrySeg_any_false Event.isGoHandler env rs hrs
      (fun _ _ _ _ _ _ _ => rfl) (fun _ => rfl)
    rw [ht]
    refine ⟨hrun, by simp, ?_, ?_, ?_, ?_⟩ <;>
      simp [bootHead, Event.isNewWithConn, Event.isAccept, Event.isNewStorage, Event.isGoHandler,
        r1, r2, r3, r4]
  · obtain ⟨st, du, fa, ap, rfl⟩ := htev
    have r1 := retrySeg_any_false Event.isNewWithConn env rs hrs.1
      (fun _ _ _ _ _ _ _ => rfl) (fun _ => rfl)
    have r2 := retrySeg_any_false Event.isAccept env rs hrs.1
      (fun _ _ _ _ _ _ _ => rfl) (fun _ => rfl)
    have r3 := retrySeg_any_false Event.isNewStorage env rs hrs.1
      (fun _ _ _ _ _ _ _ => rfl) (fun _ => rfl)
    have r4 := retrySeg_any_false Event.isGoHandler env rs hrs.1
      (fun _ _ _ _ _ _ _ => rfl) (fun _ => rfl)
    rw [ht]
    refine ⟨hrun, by simp, ?_, ?_, ?_, ?_⟩ <;>
      simp [recoveryTrace, bootHead, Event.isNewWithConn, Event.isAccept, Event.isNewStorage,
        Event.isGoHandler, r1, r2, r3, r4]
  · exfalso
    obtain ⟨st, du, _, rfl⟩ := htev
    rw [ht] at h
    have h1 := fun site => retrySeg_any_false (Event.isFailure site) env rs hrs.1
      (fun _ _ _ _ _ _ _ => rfl) (fun _ => rfl)
    have h2 := fun site => bindSeg_any_false (Event.isFailure site) env bs hbs
      (fun _ _ _ => rfl) (fun _ => rfl)
    simp [bindTrace, recoveryTrace, bootHead, Event.isFailure, h1, h2] at h
  · exfalso
    obtain ⟨st, du, _, rfl⟩ := htev
    rw [ht] at h
    have h1 := fun site => retrySeg_any_false (Event.isFailure site) env rs hrs.1
      (fun _ _ _ _ _ _ _ => rfl) (fun _ => rfl)
    have h2 := fun site => bindSeg_any_false (Event.isFailure site) env bs hbs.1
      (fun _ _ _ => rfl) (fun _ => rfl)
    have h3 := fun site => serve_any_false (Event.isFailure site) tr 0 evs hevs
      (fun e he => by
        cases e <;> first | rfl | exact absurd he (by simp [Event.isServe]))
    simp [bindTrace, recoveryTrace, bootHead, Event.isFailure, h1, h2, h3] at h

/-- C3 at a run whose recovery fails on all five attempts. -/
theorem recovery_failure_aborts_startup_witness :
    (mainTrace brokenRecoveryEnv []).any (Event.isFailure Site.retryRecover) = true ∧
    (mainRun brokenRecoveryEnv [] = none ∧
     (mainTrace brokenRecoveryEnv []).getLast? = some Event.mainReturn ∧
     (mainTrace brokenRecoveryEnv []).any Event.isNewWithConn = false ∧
     (mainTrace brokenRecoveryEnv []).any Event.isAccept = false ∧
     (mainTrace brokenRecoveryEnv []).any Event.isNewStorage = false ∧
     (mainTrace brokenRecoveryEnv []).any Event.isGoHandler = false) :=
  ⟨by decide, recovery_failure_aborts_startup brokenRecoveryEnv [] (Or.inl (by decide))⟩

/-! ## C1: `main` returns while a handler is still running -/

/-- C1: the run `drainSchedule` is a run of `main` (every step is enabled) in
which the stop signal has been received and `main` has returned while one
`HandleClient` goroutine is still running: the wait group counts 1 and the
shutdown goroutine is still blocked in `wg.Wait()`. -/
theorem main_returns_with_handler_running :
    mainEnabled healthyEnv drainSchedule = true ∧
    (mainTrace healthyEnv drainSchedule).any Event.isQuitReceived = true ∧
    (mainTrace healthyEnv drainSchedule).getLast? = some Event.mainReturn ∧
    (mainRun healthyEnv drainSchedule).map
        (fun p => (p.mainPc, p.shutdownPc, p.running.length, p.wg)) =
      some (MainPc.returned, ShutdownPc.atWait, 1, 1) := by
  decide

/-! ## C2: the recovered map is not the map the handlers see -/

/-- C2: with the AOF holding `SET a 1`, recovery succeeds and the first handler
is constructed with instance 0, whose map is empty; the recovered mapping sits
in instance 1, which no handler is given. -/
theorem recovered_state_not_in_live_instance :
    mainEnabled healthyEnv firstClientSchedule = true ∧
    (mainTrace healthyEnv firstClientSchedule).getLast? = some (Event.newStorage 0 0) ∧
    mainHeap healthyEnv firstClientSchedule =
      [{ aofManager := 0, recovering := false, data := [] },
       { aofManager := 0, recovering := true, data := [([97], [49])] }] ∧
    ((mainHeap healthyEnv firstClientSchedule).get? 0).map (fun st => st.Get [97]) = some none ∧
    ((mainHeap healthyEnv firstClientSchedule).get? 1).map (fun st => st.Get [97]) =
      some (some [49]) := by
  decide

/-! ## C4: the retry attempts run under no deadline -/

/-- C4: when the first call of `Recover` takes 10000 ms and succeeds, it is
made by the retry of line 47 under no deadline, the 6000 ms deadline is set
only for the second call, and startup goes on to bind the listener. -/
theorem retry_attempt_runs_without_deadline :
    (mainTrace slowRecoveryEnv []).filter Event.isRecover =
      [Event.recover 1 "data.aof" { retry := some (300, 5, 0), deadline := none } 0 10000 false 1,
       Event.recover 1 "data.aof" { retry := none, deadline := some 16000 } 10000 0 false 1] ∧
    (mainTrace slowRecoveryEnv []).any Event.isNewWithConn = true ∧
    (mainTrace slowRecoveryEnv []).any (Event.isFailure Site.retryRecover) = false ∧
    (mainTrace slowRecoveryEnv []).any (Event.isFailure Site.timeoutRecover) = false ∧
    (mainRun slowRecoveryEnv []).isSome = true := by
  decide

/-! ## C5: the two Storage Engine instances -/

/-- C5, as stated, fails: a run whose AOF file cannot be opened returns at line
32 and creates no Storage Engine instance at all, not two. -/
theorem no_instance_without_aof :
    ¬ ((mainTrace noAofEnv []).countP Event.isStorageNew = 2) := by
  decide

/-- C5, amended: a run of `main` in which the logger and the AOF handle are
created makes exactly two calls of `storage.New`, the first live (flag false,
instance 0) and the second recovering (flag true, instance 1), and its heap
holds exactly these two instances; any other run creates none.  In every run
the recovering instance is passed only to the Recovery Replayer, and every
handler is constructed with, and works on, the live instance. -/
theorem two_storage_instances (env : Env) (sched : List Label) :
    (mainTrace env sched).filter Event.isStorageNew =
      (if env.loggerOk && env.aofOk
        then [Event.storageNew 0 false 0, Event.storageNew 0 true 1] else []) ∧
    (mainHeap env sched).map Storage.ident =
      (if env.loggerOk && env.aofOk then [(0, false), (0, true)] else []) ∧
    ((mainTrace env sched).filter (fun e => e.storageArg == some 1)).all Event.isReplayer = true ∧
    ((mainTrace env sched).filter Event.isHandler).all (fun e => e.storageArg == some 0) = true := by
  refine ⟨storageNew_calls env sched, heap_instances env sched, ?_, ?_⟩
  · rw [List.all_filter]
    apply mainTrace_all <;> intros <;> try rfl
    rename_i tr e he
    cases e <;> first | rfl | simp_all [Event.isServe, Event.storageArg]
  · rw [List.all_filter]
    apply mainTrace_all <;> intros <;> try rfl
    rename_i tr e he
    cases e <;> first | rfl | simp_all [Event.isServe, Event.storageArg, Event.isHandler]

/-! ## C8: who is given the AOF handle -/

/-- C8, as stated, fails: in a healthy run the handle returned by `aof.NewAOF`
(handle 0) is not given to the live instance alone; the construction of the
recovering instance receives it too, and both instances hold it. -/
theorem aof_handle_not_owned_by_live_instance_alone :
    ¬ (∀ e ∈ mainTrace healthyEnv [], e.aofArg = some 0 → e = Event.storageNew 0 false 0) ∧
    Event.newAOF "data.aof" (some 0) ∈ mainTrace healthyEnv [] ∧
    Event.storageNew 0 true 1 ∈ mainTrace healthyEnv [] ∧
    (mainHeap healthyEnv []).map Storage.ident = [(0, false), (0, true)] := by
  decide

/-- C8, amended: in every run of `main` in which the logger and the AOF handle
are created, the handle returned by `aof.NewAOF` is given to exactly two
callees, the constructor of the live instance and the constructor of the
recovering instance, and both instances hold it; no other call of `main`
receives the handle, and a run that stops earlier passes it to nobody. -/
theorem aof_handle_given_to_both_instances (env : Env) (sched : List Label) :
    (mainTrace env sched).filter (fun e => e.aofArg.isSome) =
      (if env.loggerOk && env.aofOk
        then [Event.storageNew 0 false 0, Event.storageNew 0 true 1] else []) ∧
    (mainHeap env sched).map Storage.aofManager =
      (if env.loggerOk && env.aofOk then [0, 0] else []) ∧
    ((env.loggerOk && env.aofOk) = true →
      Event.newAOF env.cfg.PathToStorageFile (some 0) ∈ mainTrace env sched) := by
  refine ⟨?_, ?_, ?_⟩
  · have hfun : (fun e : Event => e.aofArg.isSome) = Event.isStorageNew := by
      funext e
      cases e <;> rfl
    rw [hfun]
    exact storageNew_calls env sched
  · have h := congrArg (List.map Prod.fst) (heap_instances env sched)
    rw [List.map_map] at h
    have hfun : (Prod.fst ∘ Storage.ident) = Storage.aofManager := by
      funext st
      rfl
    rw [hfun] at h
    rw [h]
    split <;> rfl
  · intro hok
    obtain ⟨rest, hrest⟩ := bootHead_start env sched hok
    rw [hrest]
    simp [bootHead]

/-- C8 at a healthy run. -/
theorem aof_handle_given_to_both_instances_witness :
    (healthyEnv.loggerOk && healthyEnv.aofOk) = true ∧
    Event.newAOF healthyEnv.cfg.PathToStorageFile (some 0) ∈ mainTrace healthyEnv drainSchedule :=
  ⟨by decide, (aof_handle_given_to_both_instances healthyEnv drainSchedule).2.2 (by decide)⟩

/-! ## C9: the listener bind is retried, then startup aborts -/

/-- C9: in every run of `main`, every call of `tcp.NewWithConn` is one of the
five attempts of a `retry.RetryOperation` with base delay 300 ms; when that
retry returns an error `main` returns without calling `Accept`, registering
the signal handler, or constructing or starting a handler; and when it
returns nil, the last bind attempt succeeded and every `Accept` and the
`CloseConn` of the shutdown goroutine are made on the listener it produced. -/
theorem bind_retried_then_abort (env : Env) (sched : List Label) :
    (mainTrace env sched).all Event.bindUnderRetry = true ∧
    ((mainTrace env sched).any (Event.isFailure Site.retryBind) = true →
      mainRun env sched = none ∧
      (mainTrace env sched).getLast? = some Event.mainReturn ∧
      (mainTrace env sched).any Event.isAccept = false ∧
      (mainTrace env sched).any Event.isSignalNotify = false ∧
      (mainTrace env sched).any Event.isNewStorage = false ∧
      (mainTrace env sched).any Event.isGoHandler = false) ∧
    ((mainTrace env sched).any (Event.isSuccess Site.retryBind) = true →
      ∃ c k, ((mainTrace env sched).filter Event.isNewWithConn).getLast? =
          some (Event.newWithConn env.cfg.Port c (some k)) ∧
        (mainTrace env sched).all (Event.onTransport (some k)) = true) := by
  refine ⟨?_, ?_, ?_⟩
  · apply mainTrace_all <;> intros <;> try rfl
    · rename_i j t hj
      simp [Event.bindUnderRetry, baseRetryDelayMiliseconds, retryAttempts, hj]
    · rename_i tr e he
      cases e <;> first | rfl | exact absurd he (by simp [Event.isServe])
  · intro h
    rcases run_shape env sched with
      ⟨_, _, _, ht⟩ | ⟨_, _, _, _, ht⟩ | ⟨_, _, hrun, _, rs, err, hrs, ht⟩ |
      ⟨_, _, hrun, _, rs, tev, err, hrs, htev, ht⟩ |
      ⟨_, _, hrun, _, rs, tev, bs, err, hrs, htev, hbs, ht⟩ |
      ⟨_, _, _, _, rs, tev, bs, tr, evs, hrs, htev, hbs, hevs, ht⟩
    · rw [ht] at h
      simp [Event.isFailure] at h
    · rw [ht] at h
      simp [Event.isFailure] at h
    · exfalso
      rw [ht] at h
      have h1 := retrySeg_any_false (Event.isFailure Site.retryBind) env rs hrs
        (fun _ _ _ _ _ _ _ => rfl) (fun _ => rfl)
      simp [bootHead, Event.isFailure, h1] at h
    · exfalso
      obtain ⟨st, du, fa, ap, rfl⟩ := htev
      rw [ht] at h
      have h1 := retrySeg_any_false (Event.isFailure Site.retryBind) env rs hrs.1
        (fun _ _ _ _ _ _ _ => rfl) (fun _ => rfl)
      simp [recoveryTrace, bootHead, Event.isFailure, h1] at h
    · obtain ⟨st, du, _, rfl⟩ := htev
      have r1 := retrySeg_any_false Event.isAccept env rs hrs.1
        (fun _ _ _ _ _ _ _ => rfl) (fun _ => rfl)
      have r2 := retrySeg_any_false Event.isSignalNotify env rs hrs.1
        (fun _ _ _ _ _ _ _ => rfl) (fun _ => rfl)
      have r3 := retrySeg_any_false Event.isNewStorage env rs hrs.1
        (fun _ _ _ _ _ _ _ => rfl) (fun _ => rfl)
      have r4 := retrySeg_any_false Event.isGoHandler env rs hrs.1
        (fun _ _ _ _ _ _ _ => rfl) (fun _ => rfl)
      have b1 := bindSeg_any_false Event.isAccept env bs hbs (fun _ _ _ => rfl) (fun _ => rfl)
      have b2 := bindSeg_any_false Event.isSignalNotify env bs hbs (fun _ _ _ => rfl) (fun _ => rfl)
      have b3 := bindSeg_any_false Event.isNewStorage env bs hbs (fun _ _ _ => rfl) (fun _ => rfl)
      have b4 := bindSeg_any_false Event.isGoHandler env bs hbs (fun _ _ _ => rfl) (fun _ => rfl)
      rw [ht]
      refine ⟨hrun, by simp, ?_, ?_, ?_, ?_⟩ <;>
        simp [bindTrace, recoveryTrace, bootHead, Event.isAccept, Event.isSignalNotify,
          Event.isNewStorage, Event.isGoHandler, r1, r2, r3, r4, b1, b2, b3, b4]
    · exfalso
      obtain ⟨st, du, _, rfl⟩ := htev
      rw [ht] at h
      have h1 := retrySeg_any_false (Event.isFailure Site.retryBind) env rs hrs.1
        (fun _ _ _ _ _ _ _ => rfl) (fun _ => rfl)
      have h2 := bindSeg_any_false (Event.isFailure Site.retryBind) env bs hbs.1
        (fun _ _ _ => rfl) (fun _ => rfl)
      have h3 := serve_any_false (Event.isFailure Site.retryBind) tr 0 evs hevs
        (fun e he => by
          cases e <;> first | rfl | exact absurd he (by simp [Event.isServe]))
      simp [bindTrace, recoveryTrace, bootHead, Event.isFailure, h1, h2, h3] at h
  · intro h
    rcases run_shape env sched with
      ⟨_, _, _, ht⟩ | ⟨_, _, _, _, ht⟩ | ⟨_, _, hrun, _, rs, err, hrs, ht⟩ |
      ⟨_, _, hrun, _, rs, tev, err, hrs, htev, ht⟩ |
      ⟨_, _, hrun, _, rs, tev, bs, err, hrs, htev, hbs, ht⟩ |
      ⟨_, _, _, _, rs, tev, bs, tr, evs, hrs, htev, hbs, hevs, ht⟩
    · rw [ht] at h
      simp [Event.isSuccess] at h
    · rw [ht] at h
      simp [Event.isSuccess] at h
    · exfalso
      rw [ht] at h
      have h1 := retrySeg_any_false (Event.isSuccess Site.retryBind) env rs hrs
        (fun _ _ _ _ _ _ _ => rfl) (fun _ => rfl)
      simp [bootHead, Event.isSuccess, h1] at h
    · exfalso
      obtain ⟨st, du, fa, ap, rfl⟩ := htev
      rw [ht] at h
      have h1 := retrySeg_any_false (Event.isSuccess Site.retryBind) env rs hrs.1
        (fun _ _ _ _ _ _ _ => rfl) (fun _ => rfl)
      simp [recoveryTrace, bootHead, Event.isSuccess, h1] at h
    · exfalso
      obtain ⟨st, du, _, rfl⟩ := htev
      rw [ht] at h
      have h1 := retrySeg_any_false (Event.isSuccess Site.retryBind) env rs hrs.1
        (fun _ _ _ _ _ _ _ => rfl) (fun _ => rfl)
      have h2 := bindSeg_any_false (Event.isSuccess Site.retryBind) env bs hbs
        (fun _ _ _ => rfl) (fun _ => rfl)
      simp [bindTrace, recoveryTrace, bootHead, Event.isSuccess, h1, h2] at h
    · obtain ⟨st, du, _, rfl⟩ := htev
      obtain ⟨hbseg, bs1, c, k, hbs1, htr⟩ := hbs
      refine ⟨c, k, ?_, ?_⟩
      · have r1 := filter_nil_of_any_false _ _ (retrySeg_any_false Event.isNewWithConn env rs hrs.1
          (fun _ _ _ _ _ _ _ => rfl) (fun _ => rfl))
        have r3 := filter_nil_of_any_false _ _ (serve_any_false Event.isNewWithConn tr 0 evs hevs
          (fun e he => by
            cases e <;> first | rfl | exact absurd he (by simp [Event.isServe])))
        rw [ht, hbs1]
        simp [bindTrace, recoveryTrace, bootHead, Event.isNewWithConn, r1, r3]
      · have r1 := retrySeg_all (Event.onTransport (some k)) env rs hrs.1
          (fun _ _ _ _ _ _ => rfl) (fun _ => rfl)
        have r2 := bindSeg_all (Event.onTransport (some k)) env bs hbseg
          (fun _ _ _ => rfl) (fun _ => rfl)
        have r3 := serve_all (Event.onTransport (some k)) tr 0 evs hevs
          (fun e he => by
            rw [htr] at he
            cases e <;> first | rfl | simpa [Event.isServe, Event.onTransport] using he)
        rw [ht]
        simp [bindTrace, recoveryTrace, bootHead, Event.onTransport, r1, r2, r3]

/-- C9 at a run whose port is taken on all five attempts, and at a run whose
third attempt binds the listener. -/
theorem bind_retried_then_abort_witness :
    ((mainTrace busyPortEnv []).any (Event.isFailure Site.retryBind) = true ∧
      (mainTrace busyPortEnv []).any Event.isAccept = false) ∧
    ((mainTrace contendedPortEnv drainSchedule).any (Event.isSuccess Site.retryBind) = true ∧
      ∃ c k, ((mainTrace contendedPortEnv drainSchedule).filter Event.isNewWithConn).getLast? =
          some (Event.newWithConn contendedPortEnv.cfg.Port c (some k)) ∧
        (mainTrace contendedPortEnv drainSchedule).all (Event.onTransport (some k)) = true) :=
  ⟨⟨by decide, ((bind_retried_then_abort busyPortEnv []).2.1 (by decide)).2.2.1⟩,
   ⟨by decide, (bind_retried_then_abort contendedPortEnv drainSchedule).2.2 (by decide)⟩⟩

/-! ## C6: recovery is over before the listener is used -/

theorem recoverReturned_of_not_recover (e : Event) (h : e.isRecover = false) :
    e.recoverReturned = true := by
  cases e <;> first | rfl | exact absurd h (by simp [Event.isRecover])

theorem filter_nil_of_no_recover (f : Event → Bool) (l : List Event)
    (hf : ∀ e, f e = true → e.isRecover = true) (h : l.any Event.isRecover = false) :
    l.filter f = [] := by
  rw [List.filter_eq_nil_iff]
  rw [List.any_eq_false] at h
  intro e he hfe
  exact h e he (hf e hfe)

theorem isRetryRecover_isRecover (e : Event) (h : e.isRetryRecover = true) :
    e.isRecover = true := by
  cases e <;> first | rfl | exact absurd h (by simp [Event.isRetryRecover])

theorem isDeadlineRecover_isRecover (e : Event) (h : e.isDeadlineRecover = true) :
    e.isRecover = true := by
  cases e <;> first | rfl | exact absurd h (by simp [Event.isDeadlineRecover])

/-- The last event of a retry-wrapped recovery that returned nil is a call of
`Recover` made as an attempt of the retry. -/
theorem RetrySegOk.last (env : Env) (rs : List Event) (h : RetrySegOk env rs) :
    ∃ rs1 j start dur, rs = rs1 ++ [Event.recover 1 env.cfg.PathToStorageFile
      { retry := some (300, 5, j), deadline := none } start dur false env.records.length] := by
  obtain ⟨hseg, rs1, c, st, du, hrs⟩ := h
  have hmem : Event.recover 1 env.cfg.PathToStorageFile c st du false env.records.length ∈ rs := by
    rw [hrs]; simp
  rcases hseg _ hmem with ⟨j, st2, du2, fa2, ap2, _, heq⟩ | ⟨ms, heq⟩
  · simp only [Event.recover.injEq] at heq
    obtain ⟨_, _, hc, _, _, _, _⟩ := heq
    exact ⟨rs1, j, st, du, by rw [hrs, hc]⟩
  · exact absurd heq (by simp)

/-- C6: in every run of `main` in which `tcp.NewWithConn` or `Accept` is
called, no call of `Recover` is made at or after the first such call, nor
after the first `Accept`; every call of `Recover` made before it had returned;
the last attempt of the retry-wrapped recovery returned nil, the one call of
the deadline-bounded run returned nil, and both wrappers had returned nil to
`main`. -/
theorem recovery_completes_before_listener (env : Env) (sched : List Label)
    (h : (mainTrace env sched).any Event.isListener = true) :
    ((mainTrace env sched).dropWhile (fun e => !e.isListener)).any Event.isRecover = false ∧
    (eventsAfter Event.isAccept (mainTrace env sched)).any Event.isRecover = false ∧
    (eventsBefore Event.isListener (mainTrace env sched)).all Event.recoverReturned = true ∧
    ((eventsBefore Event.isListener (mainTrace env sched)).filter
      Event.isRetryRecover).getLast?.bind Event.recoverFailed = some false ∧
    ((eventsBefore Event.isListener (mainTrace env sched)).filter
      Event.isDeadlineRecover).map Event.recoverFailed = [some false] ∧
    (eventsBefore Event.isListener (mainTrace env sched)).any
      (Event.isSuccess Site.retryRecover) = true ∧
    (eventsBefore Event.isListener (mainTrace env sched)).any
      (Event.isSuccess Site.timeoutRecover) = true := by
  obtain ⟨rs, tev, rest, hrs, htev, ht, hA, hrest⟩ := recovery_split env sched h
  have hAp : ∀ a ∈ recoveryTrace env rs tev, (!a.isListener) = true := by
    rw [List.any_eq_false] at hA
    intro a ha
    simp [hA a ha]
  have hAq : ∀ a ∈ recoveryTrace env rs tev, (!a.isAccept) = true := by
    intro a ha
    have := hAp a ha
    simp only [Event.isListener, Bool.not_eq_true', Bool.or_eq_false_iff] at this
    simp [this.2]
  have hx : (Event.result Site.timeoutRecover none :: rest).any Event.isRecover = false := by
    simp [Event.isRecover, hrest]
  have hT : (rest.takeWhile (fun e => !e.isListener)).any Event.isRecover = false :=
    any_false_of_sublist _ _ _ (List.takeWhile_sublist _) hrest
  have hpre : eventsBefore Event.isListener (mainTrace env sched) =
      recoveryTrace env rs tev ++
        Event.result Site.timeoutRecover none :: rest.takeWhile (fun e => !e.isListener) := by
    unfold eventsBefore
    rw [ht, List.takeWhile_append_of_pos hAp]
    simp [Event.isListener, Event.isNewWithConn, Event.isAccept]
  obtain ⟨rs1, j, st1, du1, hlast⟩ := RetrySegOk.last env rs hrs
  obtain ⟨st, du, hdu, rfl⟩ := htev
  refine ⟨?_, ?_, ?_, ?_, ?_, ?_, ?_⟩
  · rw [ht, List.dropWhile_append_of_pos hAp]
    exact any_false_of_sublist _ _ _ (List.dropWhile_sublist _) hx
  · unfold eventsAfter
    rw [ht, List.dropWhile_append_of_pos hAq]
    exact any_false_of_sublist _ _ _
      ((List.drop_sublist _ _).trans (List.dropWhile_sublist _)) hx
  · rw [hpre]
    have r1 := retrySeg_all Event.recoverReturned env rs hrs.1
      (fun _ _ _ _ _ _ => rfl) (fun _ => rfl)
    have r2 : (rest.takeWhile (fun e => !e.isListener)).all Event.recoverReturned = true := by
      rw [List.any_eq_false] at hT
      exact all_of_forall _ _ (fun e he =>
        recoverReturned_of_not_recover e (by simpa using hT e he))
    simp [recoveryTrace, bootHead, Event.recoverReturned, r1, r2, hdu]
  · rw [hpre]
    have r2 := filter_nil_of_no_recover Event.isRetryRecover _ isRetryRecover_isRecover hT
    rw [hlast]
    simp [recoveryTrace, bootHead, Event.isRetryRecover, Event.recoverFailed, r2]
  · rw [hpre]
    have r0 := retrySeg_all (fun e => !e.isDeadlineRecover) env rs hrs.1
      (fun _ _ _ _ _ _ => rfl) (fun _ => rfl)
    have r1 : rs.filter Event.isDeadlineRecover = [] := by
      rw [List.filter_eq_nil_iff]
      rw [List.all_eq_true] at r0
      intro e he
      simpa using r0 e he
    have r2 := filter_nil_of_no_recover Event.isDeadlineRecover _ isDeadlineRecover_isRecover hT
    simp [recoveryTrace, bootHead, Event.isDeadlineRecover, Event.recoverFailed, r1, r2]
  · rw [hpre]
    simp [recoveryTrace, Event.isSuccess]
  · rw [hpre]
    simp [recoveryTrace, Event.isSuccess]

/-- C6 at a healthy run. -/
theorem recovery_completes_before_listener_witness :
    (mainTrace healthyEnv drainSchedule).any Event.isListener = true ∧
    ((mainTrace healthyEnv drainSchedule).dropWhile
      (fun e => !e.isListener)).any Event.isRecover = false :=
  ⟨by decide, (recovery_completes_before_listener healthyEnv drainSchedule (by decide)).1⟩

/-! ## C10: `Recover` runs at least twice before the listener is bound -/

/-- C10: in every run of `main` that calls `tcp.NewWithConn`, the calls of
`Recover` made before the first bind are all made on the recovering instance
(instance 1, to which the replayer is bound) with the configured path; they are
one or more attempts of the retry followed by exactly one call under the
deadline; and every record of the AOF has been applied by at least two of
them. -/
theorem recover_runs_twice_before_listener (env : Env) (sched : List Label)
    (h : (mainTrace env sched).any Event.isNewWithConn = true) :
    Event.storageNew 0 true 1 ∈ eventsBefore Event.isNewWithConn (mainTrace env sched) ∧
    Event.recoverNew 1 ∈ eventsBefore Event.isNewWithConn (mainTrace env sched) ∧
    ((eventsBefore Event.isNewWithConn (mainTrace env sched)).filter Event.isRecover).all
      (fun e => e.storageArg == some 1 &&
        e.recoverPath == some env.cfg.PathToStorageFile) = true ∧
    (∃ retryCalls timeoutCall,
      (eventsBefore Event.isNewWithConn (mainTrace env sched)).filter Event.isRecover =
        retryCalls ++ [timeoutCall] ∧
      retryCalls ≠ [] ∧ retryCalls.all Event.isRetryRecover = true ∧
      timeoutCall.isDeadlineRecover = true ∧ timeoutCall.isRetryRecover = false) ∧
    ∀ i, i < env.records.length →
      2 ≤ (eventsBefore Event.isNewWithConn (mainTrace env sched)).countP
        (Event.appliesRecord i) := by
  have hl : (mainTrace env sched).any Event.isListener = true := by
    rw [List.any_eq_true] at h ⊢
    obtain ⟨e, he, hb⟩ := h
    exact ⟨e, he, by simp [Event.isListener, hb]⟩
  obtain ⟨rs, tev, rest, hrs, htev, ht, hA, hrest⟩ := recovery_split env sched hl
  have hAp : ∀ a ∈ recoveryTrace env rs tev, (!a.isNewWithConn) = true := by
    rw [List.any_eq_false] at hA
    intro a ha
    have := hA a ha
    simp only [Event.isListener, Bool.not_eq_true, Bool.or_eq_false_iff] at this
    simp [this.1]
  have hT : (rest.takeWhile (fun e => !e.isNewWithConn)).any Event.isRecover = false :=
    any_false_of_sublist _ _ _ (List.takeWhile_sublist _) hrest
  have hTnil : (rest.takeWhile (fun e => !e.isNewWithConn)).filter Event.isRecover = [] :=
    filter_nil_of_any_false _ _ hT
  have hpre : eventsBefore Event.isNewWithConn (mainTrace env sched) =
      recoveryTrace env rs tev ++
        Event.result Site.timeoutRecover none ::
          rest.takeWhile (fun e => !e.isNewWithConn) := by
    unfold eventsBefore
    rw [ht, List.takeWhile_append_of_pos hAp]
    simp [Event.isNewWithConn]
  obtain ⟨rs1, j, st1, du1, hlast⟩ := RetrySegOk.last env rs hrs
  obtain ⟨st, du, hdu, rfl⟩ := htev
  have hfilter : (eventsBefore Event.isNewWithConn (mainTrace env sched)).filter Event.isRecover =
      rs.filter Event.isRecover ++
        [Event.recover 1 env.cfg.PathToStorageFile
          { retry := none, deadline := some (st + 6000) } st du false env.records.length] := by
    rw [hpre]
    simp [recoveryTrace, bootHead, Event.isRecover, hTnil]
  refine ⟨?_, ?_, ?_, ?_, ?_⟩
  · rw [hpre]; simp [recoveryTrace, bootHead]
  · rw [hpre]; simp [recoveryTrace, bootHead]
  · rw [hfilter]
    have r1 : (rs.filter Event.isRecover).all (fun e => e.storageArg == some 1 &&
        e.recoverPath == some env.cfg.PathToStorageFile) = true := by
      apply all_of_forall
      intro e he
      rcases hrs.1 e (List.mem_of_mem_filter he) with ⟨_, _, _, _, _, _, rfl⟩ | ⟨ms, rfl⟩
      · simp [Event.storageArg, Event.recoverPath]
      · simp [Event.isRecover] at he
    rw [List.all_append, r1]
    simp [Event.storageArg, Event.recoverPath]
  · refine ⟨rs.filter Event.isRecover, _, hfilter, ?_, ?_, rfl, rfl⟩
    · rw [hlast]
      simp [Event.isRecover]
    · apply all_of_forall
      intro e he
      rcases hrs.1 e (List.mem_of_mem_filter he) with ⟨_, _, _, _, _, _, rfl⟩ | ⟨ms, rfl⟩
      · rfl
      · simp [Event.isRecover] at he
  · intro i hi
    rw [hpre, hlast]
    simp only [recoveryTrace, List.countP_append, List.countP_cons, List.countP_nil,
      Event.appliesRecord, hi, decide_True, if_true]
    omega

/-- C10 at a healthy run. -/
theorem recover_runs_twice_before_listener_witness :
    (mainTrace healthyEnv drainSchedule).any Event.isNewWithConn = true ∧
    ∀ i, i < healthyEnv.records.length →
      2 ≤ (eventsBefore Event.isNewWithConn (mainTrace healthyEnv drainSchedule)).countP
        (Event.appliesRecord i) :=
  ⟨by decide,
   (recover_runs_twice_before_listener healthyEnv drainSchedule (by decide)).2.2.2.2⟩

/-! ## C7: handlers spawned around the shutdown transition -/

theorem eventsAfter_nil (p : Event → Bool) : eventsAfter p [] = [] := rfl

theorem eventsAfter_cons (p : Event → Bool) (a : Event) (l : List Event) :
    eventsAfter p (a :: l) = if p a then l else eventsAfter p l := by
  cases hp : p a <;> simp [eventsAfter, List.dropWhile_cons, hp]

theorem eventsAfter_append (p : Event → Bool) (l₁ l₂ : List Event) :
    eventsAfter p (l₁ ++ l₂) =
      if l₁.any p then eventsAfter p l₁ ++ l₂ else eventsAfter p l₂ := by
  induction l₁ with
  | nil => simp
  | cons a l ih =>
    rw [List.cons_append, eventsAfter_cons, eventsAfter_cons, ih]
    cases hp : p a <;> simp [hp]

theorem eventsAfter_of_any_false (p : Event → Bool) (l : List Event)
    (h : l.any p = false) : eventsAfter p l = [] := by
  induction l with
  | nil => rfl
  | cons a l ih =>
    simp only [List.any_cons, Bool.or_eq_false_iff] at h
    rw [eventsAfter_cons, ih h.2]
    simp [h.1]

theorem MainPc.remNewStorage_le (pc : MainPc) : pc.remNewStorage ≤ 1 := by
  cases pc <;> simp [MainPc.remNewStorage]

theorem MainPc.remWgAdd_le (pc : MainPc) : pc.remWgAdd ≤ 1 := by
  cases pc <;> simp [MainPc.remWgAdd]

theorem MainPc.remGoHandler_le (pc : MainPc) : pc.remGoHandler ≤ 1 := by
  cases pc <;> simp [MainPc.remGoHandler]

/-- A step that adds one event, other than an `Accept`, keeps the order. -/
theorem Proc.Ordered_emit (p q : Proc) (x : Event) (hp : p.Ordered)
    (hret : ¬ p.mainPc = MainPc.returned)
    (htr : q.sys.trace = p.sys.trace ++ [x])
    (hcl : q.listenerClosed = (p.listenerClosed || x.isCloseConn))
    (hx1 : x.isAcceptConn = false) (hx2 : x.isAcceptError = false)
    (hns : List.countP Event.isNewStorage [x] + q.mainPc.remNewStorage ≤ p.mainPc.remNewStorage)
    (hwg : List.countP Event.isWgAdd [x] + q.mainPc.remWgAdd ≤ p.mainPc.remWgAdd)
    (hgo : List.countP Event.isGoHandler [x] + q.mainPc.remGoHandler ≤ p.mainPc.remGoHandler) :
    q.Ordered := by
  obtain ⟨h1, h2, h3, h4, h5, h6, h7⟩ := hp
  have hnoerr : p.sys.trace.any Event.isAcceptError = false := by
    cases hb : p.sys.trace.any Event.isAcceptError
    · rfl
    · exact absurd (h6 hb) hret
  have hE := eventsAfter_of_any_false _ _ hnoerr
  unfold Proc.Ordered
  rw [htr, hcl]
  simp only [eventsAfter_append, eventsAfter_cons, eventsAfter_nil, hnoerr, hx2,
    List.any_append, List.any_cons, List.any_nil, Bool.or_false, Bool.false_or, if_false,
    Bool.false_eq_true, false_implies, true_and, ite_self, List.all_nil]
  cases hb : p.sys.trace.any Event.isCloseConn
  · have r1 := MainPc.remNewStorage_le q.mainPc
    have r2 := MainPc.remWgAdd_le q.mainPc
    have r3 := MainPc.remGoHandler_le q.mainPc
    simp only [Bool.false_or, Bool.false_eq_true, if_false, ite_self, List.any_nil,
      List.countP_nil, Nat.zero_add, true_and]
    refine ⟨?_, r1, r2, r3, trivial⟩
    intro hx
    simp [hx]
  · simp only [Bool.true_or, if_true, List.any_append, List.countP_append, h2, hx1,
      List.any_cons, List.any_nil, Bool.or_false, true_and, forall_const, true_implies]
    refine ⟨by simp [h1 hb], ?_, ?_, ?_, trivial⟩ <;> omega

theorem Proc.Ordered_step (p : Proc) (l : Label) (q : Proc)
    (hp : p.Ordered) (h : p.step? l = some q) : q.Ordered := by
  obtain ⟨h1, h2, h3, h4, h5, h6, h7⟩ := hp
  unfold Proc.step? at h
  split at h
  · exact absurd h (by simp)
  · rename_i hret
    have hnoerr : p.sys.trace.any Event.isAcceptError = false := by
      cases hb : p.sys.trace.any Event.isAcceptError
      · rfl
      · exact absurd (h6 hb) hret
    have hE := eventsAfter_of_any_false _ _ hnoerr
    cases l with
    | signal =>
      simp only [Option.some.injEq] at h
      subst h
      exact ⟨h1, h2, h3, h4, h5, h6, h7⟩
    | acceptConn =>
      simp only at h
      split at h
      · rename_i hc
        simp only [Option.some.injEq] at h
        subst h
        have hnc : p.sys.trace.any Event.isCloseConn = false := by
          cases hb : p.sys.trace.any Event.isCloseConn
          · rfl
          · rw [h1 hb] at hc; exact absurd hc.2 (by decide)
        simp [Proc.Ordered, Sys.emit, eventsAfter_append, eventsAfter_cons, eventsAfter_nil,
          hnc, hnoerr,
          Event.isCloseConn, Event.isAcceptError, MainPc.remNewStorage, MainPc.remWgAdd,
          MainPc.remGoHandler]
      · exact absurd h (by simp)
    | acceptError =>
      simp only at h
      split at h
      · rename_i hc
        simp only [Option.some.injEq] at h
        subst h
        rw [hc] at h3 h4 h5
        simp only [MainPc.remNewStorage, MainPc.remWgAdd, MainPc.remGoHandler] at h3 h4 h5
        cases hb : p.sys.trace.any Event.isCloseConn
        · simp [Proc.Ordered, Sys.emit, eventsAfter_append, eventsAfter_cons, eventsAfter_nil,
            hb, hnoerr, Event.isCloseConn, Event.isAcceptError, MainPc.remNewStorage,
            MainPc.remWgAdd, MainPc.remGoHandler]
        · have hcl := h1 hb
          rw [List.any_eq_false] at h2
          simp [Proc.Ordered, Sys.emit, eventsAfter_append, eventsAfter_cons, eventsAfter_nil,
            hb, hnoerr, hcl, Event.isCloseConn, Event.isAcceptError, Event.isAcceptConn,
            Event.isNewStorage, Event.isWgAdd, Event.isGoHandler, MainPc.remNewStorage,
            MainPc.remWgAdd, MainPc.remGoHandler, List.countP_append]
          refine ⟨?_, ?_, ?_, ?_⟩
          · intro x hx; simpa using h2 x hx
          · omega
          · omega
          · omega
      · exact absurd h (by simp)
    | newHandler =>
      simp only at h
      split at h
      · rename_i conn hpc
        simp only [Option.some.injEq] at h
        subst h
        exact Proc.Ordered_emit p _ (Event.newStorage conn p.storageInstance)
          ⟨h1, h2, h3, h4, h5, h6, h7⟩ hret rfl (by simp [Event.isCloseConn]) rfl rfl
          (by simp [hpc, Event.isNewStorage, MainPc.remNewStorage])
          (by simp [hpc, Event.isWgAdd, MainPc.remWgAdd])
          (by simp [hpc, Event.isGoHandler, MainPc.remGoHandler])
      · exact absurd h (by simp)
    | wgAdd =>
      simp only at h
      split at h
      · rename_i conn st hpc
        simp only [Option.some.injEq] at h
        subst h
        exact Proc.Ordered_emit p _ Event.wgAdd
          ⟨h1, h2, h3, h4, h5, h6, h7⟩ hret rfl (by simp [Event.isCloseConn]) rfl rfl
          (by simp [hpc, Event.isNewStorage, MainPc.remNewStorage])
          (by simp [hpc, Event.isWgAdd, MainPc.remWgAdd])
          (by simp [hpc, Event.isGoHandler, MainPc.remGoHandler])
      · exact absurd h (by simp)
    | goHandler =>
      simp only at h
      split at h
      · rename_i conn st hpc
        simp only [Option.some.injEq] at h
        subst h
        exact Proc.Ordered_emit p _ (Event.goHandler conn)
          ⟨h1, h2, h3, h4, h5, h6, h7⟩ hret rfl (by simp [Event.isCloseConn]) rfl rfl
          (by simp [hpc, Event.isNewStorage, MainPc.remNewStorage])
          (by simp [hpc, Event.isWgAdd, MainPc.remWgAdd])
          (by simp [hpc, Event.isGoHandler, MainPc.remGoHandler])
      · exact absurd h (by simp)
    | recvQuit =>
      simp only at h
      split at h
      · simp only [Option.some.injEq] at h
        subst h
        exact Proc.Ordered_emit p _ Event.quitReceived
          ⟨h1, h2, h3, h4, h5, h6, h7⟩ hret rfl (by simp [Event.isCloseConn]) rfl rfl
          (by simp [Event.isNewStorage])
          (by simp [Event.isWgAdd])
          (by simp [Event.isGoHandler])
      · exact absurd h (by simp)
    | closeConn =>
      simp only at h
      split at h
      · simp only [Option.some.injEq] at h
        subst h
        exact Proc.Ordered_emit p _ (Event.closeConn p.sys.transport)
          ⟨h1, h2, h3, h4, h5, h6, h7⟩ hret rfl (by simp [Event.isCloseConn]) rfl rfl
          (by simp [Event.isNewStorage])
          (by simp [Event.isWgAdd])
          (by simp [Event.isGoHandler])
      · exact absurd h (by simp)
    | wgWait =>
      simp only at h
      split at h
      · simp only [Option.some.injEq] at h
        subst h
        exact Proc.Ordered_emit p _ Event.wgWaitReturned
          ⟨h1, h2, h3, h4, h5, h6, h7⟩ hret rfl (by simp [Event.isCloseConn]) rfl rfl
          (by simp [Event.isNewStorage])
          (by simp [Event.isWgAdd])
          (by simp [Event.isGoHandler])
      · exact absurd h (by simp)
    | handlerOp conn r appendOk =>
      simp only at h
      split at h
      · rename_i hd hfind
        simp only [Option.some.injEq] at h
        subst h
        exact Proc.Ordered_emit p _ (Event.handlerOp conn hd.2 r)
          ⟨h1, h2, h3, h4, h5, h6, h7⟩ hret (by simp [Sys.emit, Sys.mutate_trace])
          (by simp [Event.isCloseConn]) rfl rfl
          (by simp [Event.isNewStorage])
          (by simp [Event.isWgAdd])
          (by simp [Event.isGoHandler])
      · exact absurd h (by simp)
    | handlerDone conn =>
      simp only at h
      split at h
      · simp only [Option.some.injEq] at h
        subst h
        exact Proc.Ordered_emit p _ (Event.wgDone conn)
          ⟨h1, h2, h3, h4, h5, h6, h7⟩ hret rfl (by simp [Event.isCloseConn]) rfl rfl
          (by simp [Event.isNewStorage])
          (by simp [Event.isWgAdd])
          (by simp [Event.isGoHandler])
      · exact absurd h (by simp)

/-- Lines 22-73 make startup calls only. -/
theorem startup_trace_all (env : Env) : (startup env).trace.all Event.isStartup = true := by
  have h := startup_shape env
  cases hs : startup env with
  | aborted a sys =>
    rw [hs] at h
    cases a with
    | line26 =>
      obtain ⟨_, _, ht⟩ := h
      simp [Boot.trace, ht, Event.isStartup]
    | line32 =>
      obtain ⟨_, _, _, ht⟩ := h
      simp [Boot.trace, ht, Event.isStartup]
    | line50 =>
      obtain ⟨_, _, _, rs, err, hrs, ht⟩ := h
      have r1 := retrySeg_all Event.isStartup env rs hrs (fun _ _ _ _ _ _ => rfl) (fun _ => rfl)
      simp [Boot.trace, ht, bootHead, Event.isStartup, r1]
    | line56 =>
      obtain ⟨_, _, _, rs, tev, err, hrs, htev, ht⟩ := h
      obtain ⟨st, du, fa, ap, rfl⟩ := htev
      have r1 := retrySeg_all Event.isStartup env rs hrs.1 (fun _ _ _ _ _ _ => rfl) (fun _ => rfl)
      simp [Boot.trace, ht, recoveryTrace, bootHead, Event.isStartup, r1]
    | line70 =>
      obtain ⟨_, _, _, rs, tev, bs, err, hrs, htev, hbs, ht⟩ := h
      obtain ⟨st, du, _, rfl⟩ := htev
      have r1 := retrySeg_all Event.isStartup env rs hrs.1 (fun _ _ _ _ _ _ => rfl) (fun _ => rfl)
      have r2 := bindSeg_all Event.isStartup env bs hbs (fun _ _ _ => rfl) (fun _ => rfl)
      simp [Boot.trace, ht, bindTrace, recoveryTrace, bootHead, Event.isStartup, r1, r2]
  | serving st =>
    rw [hs] at h
    obtain ⟨_, _, _, _, _, _, rs, tev, bs, hrs, htev, hbs, ht⟩ := h
    obtain ⟨st, du, _, rfl⟩ := htev
    have r1 := retrySeg_all Event.isStartup env rs hrs.1 (fun _ _ _ _ _ _ => rfl) (fun _ => rfl)
    have r2 := bindSeg_all Event.isStartup env bs hbs.1 (fun _ _ _ => rfl) (fun _ => rfl)
    simp [Boot.trace, ht, bindTrace, recoveryTrace, bootHead, Event.isStartup, r1, r2]

theorem startup_any_false (env : Env) (f : Event → Bool)
    (hf : ∀ e, e.isStartup = true → f e = false) : (startup env).trace.any f = false := by
  have h := startup_trace_all env
  rw [List.all_eq_true] at h
  exact any_false_of_forall f _ (fun e he => hf e (h e he))

/-- The process is ordered after every schedule. -/
theorem serve_ordered (env : Env) (st : Started) (hs : startup env = Boot.serving st)
    (sched : List Label) : ((Proc.init st).exec sched).Ordered := by
  have hc : st.sys.trace.any Event.isCloseConn = false := by
    have := startup_any_false env Event.isCloseConn
      (fun e he => by cases e <;> first | rfl | exact absurd he (by simp [Event.isStartup]))
    simpa [hs, Boot.trace] using this
  have ha : st.sys.trace.any Event.isAcceptError = false := by
    have := startup_any_false env Event.isAcceptError
      (fun e he => by cases e <;> first | rfl | exact absurd he (by simp [Event.isStartup]))
    simpa [hs, Boot.trace] using this
  apply Proc.exec_induction Proc.Ordered Proc.Ordered_step
  have e1 := eventsAfter_of_any_false _ _ hc
  have e2 := eventsAfter_of_any_false _ _ ha
  simp [Proc.Ordered, Proc.init, Sys.emit, eventsAfter_append, eventsAfter_cons, eventsAfter_nil,
    hc, ha, e1, e2, Event.isCloseConn, Event.isAcceptError, MainPc.remNewStorage,
    MainPc.remWgAdd, MainPc.remGoHandler]

/-- C7, as stated, fails: in the run `lateClientSchedule` a handler is
constructed, counted and started after the shutdown goroutine has received the
stop notification, and in the run `closeRaceSchedule` even after `CloseConn`;
`Accept` fails once `CloseConn` has been invoked in both. -/
theorem handler_spawned_after_quit_received :
    mainEnabled healthyEnv lateClientSchedule = true ∧
    ¬ ((eventsAfter Event.isQuitReceived (mainTrace healthyEnv lateClientSchedule)).any
        (fun e => e.isNewStorage || e.isWgAdd || e.isGoHandler) = false) ∧
    mainEnabled healthyEnv closeRaceSchedule = true ∧
    (eventsAfter Event.isCloseConn (mainTrace healthyEnv closeRaceSchedule)).filter
        (fun e => e.isNewStorage || e.isWgAdd || e.isGoHandler) =
      [Event.newStorage 0 0, Event.wgAdd, Event.goHandler 0] := by
  decide

/-- C7, amended: in every run of `main`, with `Accept` failing once
`CloseConn` has been invoked, no `Accept` returns a connection after
`CloseConn`, and at most one handler is constructed, at most one `wg.Add` is
made and at most one handler goroutine is started after it; after the first
`Accept` error nothing follows but the return of `main`, so there is no
further `Accept`. -/
theorem no_accept_after_close (env : Env) (sched : List Label) :
    (eventsAfter Event.isCloseConn (mainTrace env sched)).any Event.isAcceptConn = false ∧
    (eventsAfter Event.isCloseConn (mainTrace env sched)).countP Event.isNewStorage ≤ 1 ∧
    (eventsAfter Event.isCloseConn (mainTrace env sched)).countP Event.isWgAdd ≤ 1 ∧
    (eventsAfter Event.isCloseConn (mainTrace env sched)).countP Event.isGoHandler ≤ 1 ∧
    (eventsAfter Event.isAcceptError (mainTrace env sched)).all
      (fun e => e == Event.mainReturn) = true ∧
    (eventsAfter Event.isAcceptError (mainTrace env sched)).any Event.isAccept = false := by
  have key : (eventsAfter Event.isCloseConn (mainTrace env sched)).any Event.isAcceptConn = false ∧
      (eventsAfter Event.isCloseConn (mainTrace env sched)).countP Event.isNewStorage ≤ 1 ∧
      (eventsAfter Event.isCloseConn (mainTrace env sched)).countP Event.isWgAdd ≤ 1 ∧
      (eventsAfter Event.isCloseConn (mainTrace env sched)).countP Event.isGoHandler ≤ 1 ∧
      (eventsAfter Event.isAcceptError (mainTrace env sched)).all
        (fun e => e == Event.mainReturn) = true := by
    unfold mainTrace main
    cases hs : startup env with
    | aborted a sys =>
      have hc := startup_any_false env Event.isCloseConn
        (fun e he => by cases e <;> first | rfl | exact absurd he (by simp [Event.isStartup]))
      have ha := startup_any_false env Event.isAcceptError
        (fun e he => by cases e <;> first | rfl | exact absurd he (by simp [Event.isStartup]))
      rw [hs] at hc ha
      simp only [Boot.trace] at hc ha
      simp [eventsAfter_of_any_false _ _ hc, eventsAfter_of_any_false _ _ ha]
    | serving st =>
      obtain ⟨_, h2, h3, h4, h5, _, h7⟩ := serve_ordered env st hs sched
      simp only
      exact ⟨h2, by omega, by omega, by omega, h7⟩
  obtain ⟨k1, k2, k3, k4, k5⟩ := key
  refine ⟨k1, k2, k3, k4, k5, ?_⟩
  rw [List.all_eq_true] at k5
  apply any_false_of_forall
  intro e he
  have := k5 e he
  simp only [beq_iff_eq] at this
  rw [this]
  rfl

end MiniKeyValue
